import Mathlib

/-!
Verification of the ERLT IR transponder driver, `src/main/drivers/transponder_ir.c`.

A shallow embedding of the driver: the globals of the C file become the fields
of `State`, every C function becomes a Lean function on `State`, machine
integers are natural numbers reduced modulo `2 ^ width` at every increment,
array accesses are bounds-checked and loops are bounded by a fuel argument.
-/

namespace TransponderIr

/-! ## Data model -/

/-- Ways in which a run of the embedded code can fail to produce a state. -/
inductive Err where
  /-- An array was indexed outside its bounds (undefined behaviour in C). -/
  | outOfBounds
  /-- A loop did not finish within the fuel it was given. -/
  | outOfFuel
  deriving DecidableEq, Repr

/-- Memory events of a run, recorded for the safety statements. -/
inductive Event where
  /-- The assignment `transponderIrDMABuffer[index] = value`. -/
  | store (index value : Nat)
  /-- An assignment to `dmaBufferOffset`, with the value assigned. -/
  | cursor (value : Nat)
  /-- The call `transponderIrDMAEnable()`. -/
  | dmaEnable
  deriving DecidableEq, Repr

/-- Modelled from the spec: the capacity macro `TRANSPONDER_DMA_BUFFER_SIZE` is declared in
`transponder_ir.h`, which is not among the sources; the spec (and the implementation note of
the C file) give 720 bytes. -/
def TRANSPONDER_DMA_BUFFER_SIZE : Nat := 720

/-- Modelled from the spec: the macro `NUM_PERIODS_0` is declared in `transponder_ir.h`, which
is not among the sources; the loops using it are commented `5 x 50us -> 0`. -/
def NUM_PERIODS_0 : Nat := 5

/-- Modelled from the spec: the macro `NUM_PERIODS_1` is declared in `transponder_ir.h`, which
is not among the sources; the fixed test pattern uses `13 x 50us -> 1`. -/
def NUM_PERIODS_1 : Nat := 13

/-- The globals of `transponder_ir.c`, and the history of memory events. -/
structure State where
  /-- The array `uint8_t transponderIrDMABuffer[TRANSPONDER_DMA_BUFFER_SIZE]`. -/
  transponderIrDMABuffer : List Nat
  /-- The flag `volatile uint8_t transponderIrDataTransferInProgress`. -/
  transponderIrDataTransferInProgress : Nat
  /-- The cursor `static uint16_t dmaBufferOffset`. -/
  dmaBufferOffset : Nat
  /-- The `static uint32_t waitCounter` of `transponderIrWaitForTransmitComplete`. -/
  waitCounter : Nat
  /-- History variable (no counterpart in memory): the events so far, newest first. -/
  trace : List Event
  deriving DecidableEq, Repr

/-- The state at program start: statics are zero, and `transponderIrInit` zero-fills the
buffer with `memset`. -/
def initialState : State :=
  { transponderIrDMABuffer := List.replicate TRANSPONDER_DMA_BUFFER_SIZE 0
    transponderIrDataTransferInProgress := 0
    dmaBufferOffset := 0
    waitCounter := 0
    trace := [] }

/-! ## The encoder -/

/-- The loop body shared by every loop of the encoder:
`transponderIrDMABuffer[dmaBufferOffset] = value; dmaBufferOffset++;`
with the array access checked and the `uint16_t` increment reduced modulo `2 ^ 16`. -/
def storeAtCursor (value : Nat) (s : State) : Except Err State :=
  if s.dmaBufferOffset < s.transponderIrDMABuffer.length then
    .ok { s with
      transponderIrDMABuffer := s.transponderIrDMABuffer.set s.dmaBufferOffset value
      dmaBufferOffset := (s.dmaBufferOffset + 1) % 65536
      trace := Event.cursor ((s.dmaBufferOffset + 1) % 65536)
        :: Event.store s.dmaBufferOffset value :: s.trace }
  else
    .error Err.outOfBounds

/-- The loop `for (; i < bound; i++) { transponderIrDMABuffer[dmaBufferOffset] = value;
dmaBufferOffset++; }` whose counter `i` is an unsigned integer of `bits` bits. -/
def storeLoop (bits bound value : Nat) : Nat → Nat → State → Except Err State
  | 0, _, _ => .error Err.outOfFuel
  | fuel + 1, i, s =>
    if i < bound then
      match storeAtCursor value s with
      | .ok s1 => storeLoop bits bound value fuel ((i + 1) % 2 ^ bits) s1
      | .error e => .error e
    else
      .ok s

/-- The data-bit loop `for (i = 0; i < 6; i++) { ... }` of the second body of
`updateTransponderDMABuffer_erlt`, entered with the current values of the locals `i`
(`uint16_t`), `bitmask` (`uint8_t`) and `parity` (`bool`); it returns the final `parity` with
the state. `numPeriods` and `value` are assigned in every iteration before they are read. -/
def dataBitsLoop (erltIrCode : Nat) : Nat → Nat → Nat → Bool → State → Except Err (Bool × State)
  | 0, _, _, _, _ => .error Err.outOfFuel
  | fuel + 1, i, bitmask, parity, s =>
    if i < 6 then
      let numPeriods := if erltIrCode &&& bitmask = 0 then NUM_PERIODS_0 % 256 else NUM_PERIODS_1 % 256
      let parity1 := if erltIrCode &&& bitmask = 0 then parity else !parity
      let bitmask1 := (bitmask >>> 1) % 256
      let value := if i &&& 1 = 0 then 50 else 0
      match storeLoop 8 numPeriods value fuel 0 s with
      | .ok s1 => dataBitsLoop erltIrCode fuel ((i + 1) % 65536) bitmask1 parity1 s1
      | .error e => .error e
    else
      .ok (parity, s)

/-- The expression `(~transponderData[5]) & 63` assigned to the `uint8_t erltIrCode`: the byte
`b` is promoted to a 32-bit `int`, complemented (bit pattern `2 ^ 32 - 1 - b`), masked with 63
and converted back to eight bits. -/
def erltIrCodeOf (b : Nat) : Nat :=
  ((4294967295 - b) &&& 63) % 256

/-- The assignment `dmaBufferOffset = 0`. -/
def resetCursor (s : State) : State :=
  { s with dmaBufferOffset := 0, trace := Event.cursor 0 :: s.trace }

/-- The second (parameterized) body of `updateTransponderDMABuffer_erlt`, lines 130-198. -/
def updateTransponderDMABuffer_erlt (fuel : Nat) (transponderData : List Nat) (s : State) :
    Except Err State :=
  match transponderData[5]? with
  | none => .error Err.outOfBounds
  | some b =>
    let erltIrCode := erltIrCodeOf b
    -- Header
    match storeLoop 16 NUM_PERIODS_0 50 fuel 0 (resetCursor s) with
    | .error e => .error e
    | .ok s1 =>
    match storeLoop 16 NUM_PERIODS_0 0 fuel 0 s1 with
    | .error e => .error e
    | .ok s2 =>
    -- Data bits
    match dataBitsLoop erltIrCode fuel 0 32 true s2 with
    | .error e => .error e
    | .ok (parity, s3) =>
    -- Parity bit
    let numPeriods := if parity then NUM_PERIODS_0 % 256 else NUM_PERIODS_1 % 256
    match storeLoop 16 numPeriods 50 fuel 0 s3 with
    | .error e => .error e
    | .ok s4 =>
    -- Padding up to 400 entries; the counter starts at the cursor
    storeLoop 16 400 0 fuel s4.dmaBufferOffset s4

/-- The first body of `updateTransponderDMABuffer_erlt`, lines 64-128: the fixed test pattern
for code 63. It ignores its argument; its counter `i` is a `uint8_t`. -/
def updateTransponderDMABuffer_erlt_testPattern (fuel : Nat) (_transponderData : List Nat)
    (s : State) : Except Err State :=
  match storeLoop 8 5 50 fuel 0 (resetCursor s) with
  | .error e => .error e
  | .ok s1 =>
  match storeLoop 8 5 0 fuel 0 s1 with
  | .error e => .error e
  | .ok s2 =>
  match storeLoop 8 13 50 fuel 0 s2 with
  | .error e => .error e
  | .ok s3 =>
  match storeLoop 8 13 0 fuel 0 s3 with
  | .error e => .error e
  | .ok s4 =>
  match storeLoop 8 13 50 fuel 0 s4 with
  | .error e => .error e
  | .ok s5 =>
  match storeLoop 8 13 0 fuel 0 s5 with
  | .error e => .error e
  | .ok s6 =>
  match storeLoop 8 13 50 fuel 0 s6 with
  | .error e => .error e
  | .ok s7 =>
  match storeLoop 8 13 0 fuel 0 s7 with
  | .error e => .error e
  | .ok s8 =>
  storeLoop 8 5 50 fuel 0 s8

/-! ## The transmitter -/

/-- The function `isTransponderIrReady`: `return !transponderIrDataTransferInProgress;`. -/
def isTransponderIrReady (s : State) : Bool :=
  s.transponderIrDataTransferInProgress == 0

/-- The body `waitCounter++` of the busy-wait loop (`uint32_t`). -/
def waitIteration (s : State) : State :=
  { s with waitCounter := (s.waitCounter + 1) % 4294967296 }

/-- The function `transponderIrWaitForTransmitComplete`, run without interruption: nothing
inside the loop changes the flag, so the loop ends only if the flag is already 0. -/
def transponderIrWaitForTransmitComplete : Nat → State → Except Err State
  | 0, _ => .error Err.outOfFuel
  | fuel + 1, s =>
    if s.transponderIrDataTransferInProgress ≠ 0 then
      transponderIrWaitForTransmitComplete fuel (waitIteration s)
    else
      .ok s

/-- Modelled from the spec: `updateTransponderDMABuffer`, called by `transponderIrUpdateData`,
is not defined among the sources; by the spec the update operation "calls Encoder.encode into
the owned PulseBuffer", and the intended encoder is the second body of
`updateTransponderDMABuffer_erlt`. -/
def updateTransponderDMABuffer (fuel : Nat) (transponderData : List Nat) (s : State) :
    Except Err State :=
  updateTransponderDMABuffer_erlt fuel transponderData s

/-- The function `transponderIrUpdateData`. -/
def transponderIrUpdateData (fuel : Nat) (transponderData : List Nat) (s : State) :
    Except Err State :=
  match transponderIrWaitForTransmitComplete fuel s with
  | .error e => .error e
  | .ok s1 => updateTransponderDMABuffer fuel transponderData s1

/-- Modelled from the spec: `transponderIrDMAEnable` is defined in the hardware layer, which is
not among the sources; by the spec it "signals the hardware playback collaborator to begin
consuming PulseBuffer from entry 0" and so writes none of the globals of this file. -/
def transponderIrDMAEnable (s : State) : State :=
  { s with trace := Event.dmaEnable :: s.trace }

/-- The function `transponderIrTransmit`. -/
def transponderIrTransmit (fuel : Nat) (s : State) : Except Err State :=
  match transponderIrWaitForTransmitComplete fuel s with
  | .error e => .error e
  | .ok s1 =>
    .ok (transponderIrDMAEnable
      { resetCursor s1 with transponderIrDataTransferInProgress := 1 })

/-- Modelled from the spec: the completion handler of the playback hardware is not among the
sources; by the spec it "must set TransmitState = Idle and perform no blocking work ... flag
flip only". -/
def transferCompleteHandler (s : State) : State :=
  { s with transponderIrDataTransferInProgress := 0 }

/-- The requests of the caller and the events of the playback hardware. -/
inductive Action where
  /-- A call `transponderIrUpdateData(transponderData)` that returns. -/
  | update (transponderData : List Nat)
  /-- A call `transponderIrTransmit()` that returns. -/
  | transmit
  /-- A call `isTransponderIrReady()`. -/
  | isReady
  /-- The completion signal of the playback hardware. -/
  | completion
  /-- One evaluation of the loop test of a pending `transponderIrWaitForTransmitComplete`,
  with the loop body if the flag is set. -/
  | waitSpin
  deriving DecidableEq, Repr

/-- One step of the transmitter. A call of `update` or `transmit` made while the flag is set
does not return, so it is no step: it shows as `waitSpin` steps until a `completion`. -/
def step (fuel : Nat) : Action → State → Except Err State
  | .update transponderData, s => transponderIrUpdateData fuel transponderData s
  | .transmit, s => transponderIrTransmit fuel s
  | .isReady, s => .ok s
  | .completion, s => .ok (transferCompleteHandler s)
  | .waitSpin, s =>
    .ok (if s.transponderIrDataTransferInProgress ≠ 0 then waitIteration s else s)

/-- A sequence of steps, each of which succeeds. -/
def run (fuel : Nat) : List Action → State → Except Err State
  | [], s => .ok s
  | a :: rest, s =>
    match step fuel a s with
    | .error e => .error e
    | .ok s1 => run fuel rest s1

/-! ## The transmitter, one loop test at a time

The functions above run a call without interruption. Here a call of
`transponderIrUpdateData` or `transponderIrTransmit` is cut at the test of the busy-wait loop
(line 204), so that the completion signal can arrive while the call is waiting, and so that
what a call does before, during and after its wait shows as separate steps. -/

/-- Where the caller is, between or inside the calls of the transmitter. -/
inductive Control where
  /-- Outside any call. -/
  | outside
  /-- Inside `transponderIrUpdateData(transponderData)`, at line 211: before a test of the
  busy-wait loop, with the call of the encoder (line 213) still to come. -/
  | updateWaiting (transponderData : List Nat)
  /-- Inside `transponderIrTransmit()`, at line 219: before a test of the busy-wait loop, with
  lines 221-224 still to come. -/
  | transmitWaiting
  deriving DecidableEq, Repr

/-- The globals together with the place of the caller. -/
structure Config where
  /-- The globals. -/
  state : State
  /-- The place of the caller. -/
  control : Control
  deriving DecidableEq, Repr

/-- The configuration at program start. -/
def initialConfig : Config :=
  { state := initialState, control := Control.outside }

/-- What can happen next: the single caller moves, or the playback hardware signals. -/
inductive Move where
  /-- The caller enters `transponderIrUpdateData(transponderData)`. -/
  | callUpdate (transponderData : List Nat)
  /-- The caller enters `transponderIrTransmit()`. -/
  | callTransmit
  /-- The function `isTransponderIrReady()` is called and returns. -/
  | callIsReady
  /-- The caller, inside a call, runs on from the loop test: through the loop body
  `waitCounter++` back to the test if the flag is set, and otherwise through the rest of the
  function to its return. -/
  | proceed
  /-- The completion signal of the playback hardware. -/
  | completion
  deriving DecidableEq, Repr

/-- One move. In `transponderIrUpdateData` and `transponderIrTransmit` nothing precedes the
busy-wait, so entering a call changes no global; the statements after the wait run only from a
loop test that found the flag 0. Between such a test and the return of the function only the
completion handler could run, which writes 0 to the flag and nothing else. A move that is not
possible where the caller is (a new call from inside a call, `proceed` outside any call) leaves
the configuration as it is. -/
def microStep (fuel : Nat) (m : Move) (c : Config) : Except Err Config :=
  match m, c.control with
  | Move.callUpdate transponderData, Control.outside =>
    .ok { c with control := Control.updateWaiting transponderData }
  | Move.callTransmit, Control.outside =>
    .ok { c with control := Control.transmitWaiting }
  | Move.proceed, Control.updateWaiting transponderData =>
    if c.state.transponderIrDataTransferInProgress ≠ 0 then
      .ok { c with state := waitIteration c.state }
    else
      match updateTransponderDMABuffer fuel transponderData c.state with
      | .error e => .error e
      | .ok s1 => .ok { state := s1, control := Control.outside }
  | Move.proceed, Control.transmitWaiting =>
    if c.state.transponderIrDataTransferInProgress ≠ 0 then
      .ok { c with state := waitIteration c.state }
    else
      .ok { state := transponderIrDMAEnable
              { resetCursor c.state with transponderIrDataTransferInProgress := 1 }
            control := Control.outside }
  | Move.completion, _ => .ok { c with state := transferCompleteHandler c.state }
  | _, _ => .ok c

/-- A sequence of moves, each of which succeeds. -/
def microRun (fuel : Nat) : List Move → Config → Except Err Config
  | [], c => .ok c
  | m :: rest, c =>
    match microStep fuel m c with
    | .error e => .error e
    | .ok c1 => microRun fuel rest c1

/-! ## The frame as the spec describes it -/

/-- The 6-bit code of the spec: "bitwise NOT of input byte 5, masked to 6 bits". -/
def specCode (b : Nat) : Nat :=
  (255 - b) &&& 63

/-- Data run `i` of the spec: 13 units if bit `5 - i` of the code is 1 and 5 otherwise, on
(50) for even `i` and off (0) for odd `i`. -/
def dataRun (code i : Nat) : List Nat :=
  List.replicate (if code.testBit (5 - i) then 13 else 5) (if i % 2 = 0 then 50 else 0)

/-- The number of 1-bits among the six bits of the code. -/
def onesCount (code : Nat) : Nat :=
  ((List.range 6).filter (fun k => code.testBit k)).length

/-- The parity run of the spec: on, 5 units for an even number of 1-bits and 13 for odd. -/
def parityRun (code : Nat) : List Nat :=
  List.replicate (if onesCount code % 2 = 0 then 5 else 13) 50

/-- Header, six data runs (most significant bit first) and parity run. -/
def activePart (code : Nat) : List Nat :=
  List.replicate 5 50 ++ List.replicate 5 0 ++
    (dataRun code 0 ++ dataRun code 1 ++ dataRun code 2 ++ dataRun code 3 ++ dataRun code 4 ++
      dataRun code 5) ++ parityRun code

/-- The frame of the spec: the active part, padded with off entries up to 400 entries. -/
def referenceFrame (code : Nat) : List Nat :=
  activePart code ++ List.replicate (400 - (activePart code).length) 0

/-- The maximal runs of a list of entries, as (level, duration) pairs. -/
def runLengths : List Nat → List (Nat × Nat)
  | [] => []
  | v :: vs =>
    match runLengths vs with
    | [] => [(v, 1)]
    | (u, n) :: rest => if u = v then (v, n + 1) :: rest else (v, 1) :: (u, n) :: rest

/-- The six data runs and the parity run of a frame: its runs 2 to 8, after the two header
runs. -/
def dataAndParityRuns (frame : List Nat) : List (Nat × Nat) :=
  ((runLengths frame).drop 2).take 7

/-- The bit a run stands for: 1 if it lasts `NUM_PERIODS_1` units, 0 otherwise. -/
def impliedBit (r : Nat × Nat) : Bool :=
  r.2 == NUM_PERIODS_1

/-! ## Auxiliary definitions of the proofs -/

/-- The events of writing the entries `w` one after the other from index `o`, oldest first. -/
def eventsOf : Nat → List Nat → List Event
  | _, [] => []
  | o, v :: vs => Event.store o v :: Event.cursor (o + 1) :: eventsOf (o + 1) vs

/-- The state reached from `s0` by resetting the cursor and then writing the entries `w`. -/
def wrote (s0 : State) (w : List Nat) : State :=
  { transponderIrDMABuffer := w ++ s0.transponderIrDMABuffer.drop w.length
    transponderIrDataTransferInProgress := s0.transponderIrDataTransferInProgress
    dmaBufferOffset := w.length
    waitCounter := s0.waitCounter
    trace := (eventsOf 0 w).reverse ++ Event.cursor 0 :: s0.trace }

/-- The indices of the buffer stores of a trace. -/
def storeIndices (t : List Event) : List Nat :=
  t.filterMap fun e => match e with
    | Event.store i _ => some i
    | _ => none

/-- The values assigned to `dmaBufferOffset` in a trace. -/
def cursorValues (t : List Event) : List Nat :=
  t.filterMap fun e => match e with
    | Event.cursor c => some c
    | _ => none

/-- The data runs `i, i + 1, ...` (`m` of them) of the loop. -/
def dataRunsFrom (code : Nat) : Nat → Nat → List Nat
  | 0, _ => []
  | m + 1, i => dataRun code i ++ dataRunsFrom code m (i + 1)

/-- The value of `parity` after `m` more iterations of the data loop from iteration `i`. -/
def parityFrom (code : Nat) : Nat → Nat → Bool → Bool
  | 0, _, p => p
  | m + 1, i, p => parityFrom code m (i + 1) (if code.testBit (5 - i) then !p else p)

/-- The six data bits a receiver reads off a frame, most significant first, as a number: a data
run of `NUM_PERIODS_1` units is a 1, any other a 0. -/
def decodeCode (frame : List Nat) : Nat :=
  (((dataAndParityRuns frame).take 6).map impliedBit).foldl
    (fun acc bit => 2 * acc + bit.toNat) 0

/-- The index of the last entry of a list that is not 0, if there is one. -/
def lastNonZero : List Nat → Option Nat
  | [] => none
  | v :: vs =>
    match lastNonZero vs with
    | some k => some (k + 1)
    | none => if v ≠ 0 then some 0 else none

/-- The number of places at which two neighbouring entries of a list differ. -/
def levelChanges : List Nat → Nat
  | a :: b :: rest => (if a ≠ b then 1 else 0) + levelChanges (b :: rest)
  | _ => 0

/-! ## The encoder with its loops counted -/

/-- What a counted run of the encoder records about its loops. -/
structure LoopStats where
  /-- Body executions of the first header loop. -/
  headerOn : Nat
  /-- Body executions of the second header loop. -/
  headerOff : Nat
  /-- Body executions of the inner loop over `j`, one number for each data bit, in order. -/
  dataRuns : List Nat
  /-- Body executions of the data-bit loop. -/
  dataBits : Nat
  /-- Body executions of the parity loop. -/
  parityRun : Nat
  /-- Body executions of the padding loop. -/
  padding : Nat
  /-- Whether an update of `i`, `j`, `bitmask` or `dmaBufferOffset` left the range of its
  type. -/
  wrapped : Bool
  deriving DecidableEq, Repr

/-- The loop of `storeLoop`, which also returns the number of times its body ran and whether
an increment of its counter or of `dmaBufferOffset` exceeded the range of the type. -/
def storeLoopCounted (bits bound value : Nat) :
    Nat → Nat → State → Except Err (State × Nat × Bool)
  | 0, _, _ => .error Err.outOfFuel
  | fuel + 1, i, s =>
    if i < bound then
      match storeAtCursor value s with
      | .error e => .error e
      | .ok s1 =>
        match storeLoopCounted bits bound value fuel ((i + 1) % 2 ^ bits) s1 with
        | .error e => .error e
        | .ok (s2, n, wrapped) =>
          .ok (s2, n + 1,
            wrapped || decide (2 ^ bits ≤ i + 1) || decide (65536 ≤ s.dmaBufferOffset + 1))
    else
      .ok (s, 0, false)

/-- The loop of `dataBitsLoop`, which also returns the body counts of its inner loops, the number
of times its own body ran and whether an update of `i`, `j`, `bitmask` or `dmaBufferOffset`
exceeded the range of the type. -/
def dataBitsLoopCounted (erltIrCode : Nat) :
    Nat → Nat → Nat → Bool → State → Except Err (Bool × State × List Nat × Nat × Bool)
  | 0, _, _, _, _ => .error Err.outOfFuel
  | fuel + 1, i, bitmask, parity, s =>
    if i < 6 then
      let numPeriods := if erltIrCode &&& bitmask = 0 then NUM_PERIODS_0 % 256 else NUM_PERIODS_1 % 256
      let parity1 := if erltIrCode &&& bitmask = 0 then parity else !parity
      let bitmask1 := (bitmask >>> 1) % 256
      let value := if i &&& 1 = 0 then 50 else 0
      match storeLoopCounted 8 numPeriods value fuel 0 s with
      | .error e => .error e
      | .ok (s1, n, wrapped1) =>
        match dataBitsLoopCounted erltIrCode fuel ((i + 1) % 65536) bitmask1 parity1 s1 with
        | .error e => .error e
        | .ok (parity2, s2, runs, m, wrapped2) =>
          .ok (parity2, s2, n :: runs, m + 1,
            wrapped1 || wrapped2 || decide (65536 ≤ i + 1) || decide (256 ≤ bitmask >>> 1))
    else
      .ok (parity, s, [], 0, false)

/-- The second body of `updateTransponderDMABuffer_erlt` with its loops counted. -/
def updateTransponderDMABuffer_erlt_counted (fuel : Nat) (transponderData : List Nat)
    (s : State) : Except Err (State × LoopStats) :=
  match transponderData[5]? with
  | none => .error Err.outOfBounds
  | some b =>
    let erltIrCode := erltIrCodeOf b
    match storeLoopCounted 16 NUM_PERIODS_0 50 fuel 0 (resetCursor s) with
    | .error e => .error e
    | .ok (s1, n1, wrapped1) =>
    match storeLoopCounted 16 NUM_PERIODS_0 0 fuel 0 s1 with
    | .error e => .error e
    | .ok (s2, n2, wrapped2) =>
    match dataBitsLoopCounted erltIrCode fuel 0 32 true s2 with
    | .error e => .error e
    | .ok (parity, s3, runs, m, wrapped3) =>
    let numPeriods := if parity then NUM_PERIODS_0 % 256 else NUM_PERIODS_1 % 256
    match storeLoopCounted 16 numPeriods 50 fuel 0 s3 with
    | .error e => .error e
    | .ok (s4, n4, wrapped4) =>
    match storeLoopCounted 16 400 0 fuel s4.dmaBufferOffset s4 with
    | .error e => .error e
    | .ok (s5, n5, wrapped5) =>
      .ok (s5,
        { headerOn := n1
          headerOff := n2
          dataRuns := runs
          dataBits := m
          parityRun := n4
          padding := n5
          wrapped := wrapped1 || wrapped2 || wrapped3 || wrapped4 || wrapped5 })

/-- The body counts of the inner loops of the data-bit loop (`m` of them, from iteration `i`). -/
def dataRunLengthsFrom (code : Nat) : Nat → Nat → List Nat
  | 0, _ => []
  | m + 1, i => (if code.testBit (5 - i) then 13 else 5) :: dataRunLengthsFrom code m (i + 1)

/-- The entries the loops of the fixed test pattern write, one run for each loop. -/
def testPatternEntries : List Nat :=
  List.replicate 5 50 ++ List.replicate 5 0 ++ List.replicate 13 50 ++ List.replicate 13 0 ++
    List.replicate 13 50 ++ List.replicate 13 0 ++ List.replicate 13 50 ++
    List.replicate 13 0 ++ List.replicate 5 50

/-! ## Lemmas on the loops -/

theorem eventsOf_append (o : Nat) (w1 w2 : List Nat) :
    eventsOf o (w1 ++ w2) = eventsOf o w1 ++ eventsOf (o + w1.length) w2 := by
  induction w1 generalizing o with
  | nil => simp [eventsOf]
  | cons v vs ih =>
    simp [eventsOf, ih, Nat.add_assoc, Nat.add_comm 1]

theorem resetCursor_eq_wrote (s : State) : resetCursor s = wrote s [] := by
  simp [resetCursor, wrote, eventsOf]

theorem storeAtCursor_wrote (s0 : State) (w : List Nat) (v : Nat)
    (hlen : w.length < s0.transponderIrDMABuffer.length) (h16 : w.length + 1 < 65536) :
    storeAtCursor v (wrote s0 w) = .ok (wrote s0 (w ++ [v])) := by
  have hdrop : (List.drop w.length s0.transponderIrDMABuffer).set 0 v
      = v :: List.drop (w.length + 1) s0.transponderIrDMABuffer := by
    rw [List.drop_eq_getElem_cons hlen]
    rfl
  have hlt : w.length < (w ++ List.drop w.length s0.transponderIrDMABuffer).length := by
    simp only [List.length_append, List.length_drop]
    omega
  have hbuf : (w ++ List.drop w.length s0.transponderIrDMABuffer).set w.length v
      = (w ++ [v]) ++ List.drop (w ++ [v]).length s0.transponderIrDMABuffer := by
    rw [List.set_append_right _ _ (Nat.le_refl _), Nat.sub_self, hdrop]
    simp
  have htrace : Event.cursor (w.length + 1) :: Event.store w.length v ::
      ((eventsOf 0 w).reverse ++ Event.cursor 0 :: s0.trace)
      = (eventsOf 0 (w ++ [v])).reverse ++ Event.cursor 0 :: s0.trace := by
    simp [eventsOf_append, eventsOf]
  simp only [storeAtCursor, wrote, hlt, if_true, Nat.mod_eq_of_lt h16, hbuf, htrace]
  simp

theorem storeLoop_wrote (bits bound v : Nat) (s0 : State) (k : Nat) :
    ∀ (fuel i : Nat) (w : List Nat), i + k = bound → bound < 2 ^ bits → k < fuel →
      w.length + k ≤ s0.transponderIrDMABuffer.length → w.length + k < 65536 →
      storeLoop bits bound v fuel i (wrote s0 w) = .ok (wrote s0 (w ++ List.replicate k v)) := by
  induction k with
  | zero =>
    intro fuel i w hi _ hfuel _ _
    obtain ⟨f, rfl⟩ : ∃ f, fuel = f + 1 := ⟨fuel - 1, by omega⟩
    have : ¬ i < bound := by omega
    simp [storeLoop, this]
  | succ k ih =>
    intro fuel i w hi hbits hfuel hlen h16
    obtain ⟨f, rfl⟩ : ∃ f, fuel = f + 1 := ⟨fuel - 1, by omega⟩
    have hlt : i < bound := by omega
    have hmod : (i + 1) % 2 ^ bits = i + 1 := Nat.mod_eq_of_lt (by omega)
    have hstore := storeAtCursor_wrote s0 w v (by omega) (by omega)
    simp only [storeLoop, hlt, if_true, hstore, hmod]
    rw [ih f (i + 1) (w ++ [v]) (by omega) hbits (by omega)
      (by simp only [List.length_append, List.length_singleton]; omega)
      (by simp only [List.length_append, List.length_singleton]; omega)]
    simp [List.replicate_succ]

theorem bitmask_test : ∀ code < 64, ∀ i < 6,
    (code &&& (32 >>> i) = 0 ↔ code.testBit (5 - i) = false) := by
  decide

theorem bitmask_shift (i : Nat) : ((32 >>> i) >>> 1) % 256 = 32 >>> (i + 1) := by
  rw [← Nat.shiftRight_add]
  apply Nat.mod_eq_of_lt
  rw [Nat.shiftRight_eq_div_pow]
  exact lt_of_le_of_lt (Nat.div_le_self _ _) (by decide)

theorem dataBitsLoop_wrote (code : Nat) (hcode : code < 64) (s0 : State) (m : Nat) :
    ∀ (fuel i : Nat) (p : Bool) (w : List Nat), i + m = 6 → m + 14 < fuel →
      w.length + 13 * m ≤ s0.transponderIrDMABuffer.length → w.length + 13 * m < 65536 →
      dataBitsLoop code fuel i (32 >>> i) p (wrote s0 w)
        = .ok (parityFrom code m i p, wrote s0 (w ++ dataRunsFrom code m i)) := by
  induction m with
  | zero =>
    intro fuel i p w hi hfuel _ _
    obtain ⟨f, rfl⟩ : ∃ f, fuel = f + 1 := ⟨fuel - 1, by omega⟩
    have : ¬ i < 6 := by omega
    simp [dataBitsLoop, this, parityFrom, dataRunsFrom]
  | succ m ih =>
    intro fuel i p w hi hfuel hlen h16
    obtain ⟨f, rfl⟩ : ∃ f, fuel = f + 1 := ⟨fuel - 1, by omega⟩
    have hlt : i < 6 := by omega
    have hmod : (i + 1) % 65536 = i + 1 := Nat.mod_eq_of_lt (by omega)
    have hval : (if i &&& 1 = 0 then 50 else 0) = (if i % 2 = 0 then 50 else 0) := by
      rw [Nat.and_one_is_mod]
    by_cases hbit : code &&& (32 >>> i) = 0
    · have htest : code.testBit (5 - i) = false := (bitmask_test code hcode i hlt).1 hbit
      have hrun := storeLoop_wrote 8 5 (if i % 2 = 0 then 50 else 0) s0 5 f 0 w (by omega)
        (by decide) (by omega) (by omega) (by omega)
      have hrec := ih f (i + 1) p (w ++ List.replicate 5 (if i % 2 = 0 then 50 else 0))
        (by omega) (by omega)
        (by simp only [List.length_append, List.length_replicate]; omega)
        (by simp only [List.length_append, List.length_replicate]; omega)
      simp only [dataBitsLoop, hlt, if_true, hbit, NUM_PERIODS_0, hval, hmod, bitmask_shift]
      rw [show 5 % 256 = 5 from rfl, hrun]
      simp only [hrec, parityFrom, dataRunsFrom, dataRun, htest, List.append_assoc]
      simp
    · have htest : code.testBit (5 - i) = true := by
        have := (bitmask_test code hcode i hlt).not.1 hbit
        simpa using this
      have hrun := storeLoop_wrote 8 13 (if i % 2 = 0 then 50 else 0) s0 13 f 0 w (by omega)
        (by decide) (by omega) (by omega) (by omega)
      have hrec := ih f (i + 1) (!p) (w ++ List.replicate 13 (if i % 2 = 0 then 50 else 0))
        (by omega) (by omega)
        (by simp only [List.length_append, List.length_replicate]; omega)
        (by simp only [List.length_append, List.length_replicate]; omega)
      simp only [dataBitsLoop, hlt, if_true, hbit, if_false, NUM_PERIODS_1, hval, hmod,
        bitmask_shift]
      rw [show 13 % 256 = 13 from rfl, hrun]
      simp only [hrec, parityFrom, dataRunsFrom, dataRun, htest, List.append_assoc]
      simp

theorem dataRunsFrom_length_le (code m : Nat) :
    ∀ i, (dataRunsFrom code m i).length ≤ 13 * m := by
  induction m with
  | zero => intro i; simp [dataRunsFrom]
  | succ m ih =>
    intro i
    have := ih (i + 1)
    simp only [dataRunsFrom, dataRun, List.length_append, List.length_replicate]
    split <;> omega

theorem erltIrCodeOf_lt (b : Nat) : erltIrCodeOf b < 64 := by
  unfold erltIrCodeOf
  have h : (4294967295 - b) &&& 63 ≤ 63 := Nat.and_le_right
  have := Nat.mod_le ((4294967295 - b) &&& 63) 256
  omega

set_option maxRecDepth 8000 in
theorem erltIrCodeOf_eq_specCode : ∀ b < 256, erltIrCodeOf b = specCode b := by
  decide

theorem loop_activePart : ∀ code < 64,
    List.replicate 5 50 ++ List.replicate 5 0 ++ dataRunsFrom code 6 0 ++
      List.replicate (if parityFrom code 6 0 true = true then 5 else 13) 50 = activePart code := by
  decide

theorem activePart_length_le : ∀ code < 64, (activePart code).length ≤ 93 := by
  decide

theorem referenceFrame_length (code : Nat) (hcode : code < 64) :
    (referenceFrame code).length = 400 := by
  have := activePart_length_le code hcode
  simp only [referenceFrame, List.length_append, List.length_replicate]
  omega

/-- The encoder, run on any state whose buffer has the capacity of the driver, returns the state
in which the cursor was reset and the reference frame of the code was written from index 0. -/
theorem encoder_eq (fuel : Nat) (transponderData : List Nat) (s : State) (b : Nat)
    (hb : transponderData[5]? = some b) (hfuel : 401 ≤ fuel)
    (hcap : s.transponderIrDMABuffer.length = TRANSPONDER_DMA_BUFFER_SIZE) :
    updateTransponderDMABuffer_erlt fuel transponderData s
      = .ok (wrote s (referenceFrame (erltIrCodeOf b))) := by
  have hcap720 : s.transponderIrDMABuffer.length = 720 := hcap
  have hcode : erltIrCodeOf b < 64 := erltIrCodeOf_lt b
  have hruns := dataRunsFrom_length_le (erltIrCodeOf b) 6 0
  have hact := loop_activePart (erltIrCodeOf b) hcode
  have hactlen := activePart_length_le (erltIrCodeOf b) hcode
  have h1 := storeLoop_wrote 16 5 50 s 5 fuel 0 [] rfl (by decide) (by omega)
    (by simp only [List.length_nil]; omega) (by simp)
  have h2 := storeLoop_wrote 16 5 0 s 5 fuel 0 ([] ++ List.replicate 5 50) rfl (by decide)
    (by omega) (by simp only [List.length_append, List.length_replicate, List.length_nil]; omega)
    (by simp)
  have h3 := dataBitsLoop_wrote (erltIrCodeOf b) hcode s 6 fuel 0 true
    ([] ++ List.replicate 5 50 ++ List.replicate 5 0) rfl (by omega)
    (by simp only [List.length_append, List.length_replicate, List.length_nil]; omega)
    (by simp)
  have h4 : ∀ np, np = 5 ∨ np = 13 →
      storeLoop 16 np 50 fuel 0
        (wrote s ([] ++ List.replicate 5 50 ++ List.replicate 5 0
          ++ dataRunsFrom (erltIrCodeOf b) 6 0))
      = .ok (wrote s ([] ++ List.replicate 5 50 ++ List.replicate 5 0
          ++ dataRunsFrom (erltIrCodeOf b) 6 0 ++ List.replicate np 50)) := by
    intro np hnp
    apply storeLoop_wrote 16 np 50 s np fuel 0 _ (by omega)
    · rcases hnp with rfl | rfl <;> decide
    · omega
    · simp only [List.length_append, List.length_replicate, List.length_nil]; omega
    · simp only [List.length_append, List.length_replicate, List.length_nil]; omega
  have hw : [] ++ List.replicate 5 50 ++ List.replicate 5 0
      ++ dataRunsFrom (erltIrCodeOf b) 6 0
      ++ List.replicate (if parityFrom (erltIrCodeOf b) 6 0 true = true then 5 else 13) 50
      = activePart (erltIrCodeOf b) := by
    rw [List.nil_append]; exact hact
  have h5 := storeLoop_wrote 16 400 0 s (400 - (activePart (erltIrCodeOf b)).length) fuel
    (activePart (erltIrCodeOf b)).length (activePart (erltIrCodeOf b)) (by omega) (by decide)
    (by omega) (by omega) (by omega)
  have hnp : (if parityFrom (erltIrCodeOf b) 6 0 true = true then 5 % 256 else 13 % 256)
      = (if parityFrom (erltIrCodeOf b) 6 0 true = true then 5 else 13) := rfl
  simp only [updateTransponderDMABuffer_erlt, hb, resetCursor_eq_wrote, NUM_PERIODS_0,
    NUM_PERIODS_1, h1, h2]
  rw [show (32 : Nat) = 32 >>> 0 from rfl, h3]
  simp only []
  rw [hnp, h4 _ (by split <;> simp), hw]
  exact h5

theorem storeIndices_eventsOf (w : List Nat) :
    ∀ o, storeIndices (eventsOf o w) = List.range' o w.length := by
  induction w with
  | nil => intro o; simp [eventsOf, storeIndices]
  | cons v vs ih =>
    intro o
    have := ih (o + 1)
    simp only [storeIndices] at this ⊢
    simp [eventsOf, List.range', this]

theorem cursorValues_eventsOf (w : List Nat) :
    ∀ o, cursorValues (eventsOf o w) = List.range' (o + 1) w.length := by
  induction w with
  | nil => intro o; simp [eventsOf, cursorValues]
  | cons v vs ih =>
    intro o
    have := ih (o + 1)
    simp only [cursorValues] at this ⊢
    simp [eventsOf, List.range', this]

set_option maxRecDepth 100000 in
theorem parity_referenceFrame : ∀ code < 64,
    (runLengths (referenceFrame code)).length = 10 ∧
    (dataAndParityRuns (referenceFrame code)).length = 7 ∧
    (∀ r ∈ dataAndParityRuns (referenceFrame code), r.2 = NUM_PERIODS_0 ∨ r.2 = NUM_PERIODS_1) ∧
    ((dataAndParityRuns (referenceFrame code)).map impliedBit).foldl xor false = false := by
  decide

set_option maxRecDepth 8000 in
theorem erltIrCodeOf_low_bits : ∀ x < 256, erltIrCodeOf x = 63 - (x &&& 63) := by
  decide

theorem wrote_take (s : State) (w : List Nat) :
    (wrote s w).transponderIrDMABuffer.take w.length = w := by
  simp [wrote]

theorem wrote_drop (s : State) (w : List Nat) :
    (wrote s w).transponderIrDMABuffer.drop w.length
      = s.transponderIrDMABuffer.drop w.length := by
  simp [wrote]

theorem wrote_length (s : State) (w : List Nat)
    (h : w.length ≤ s.transponderIrDMABuffer.length) :
    (wrote s w).transponderIrDMABuffer.length = s.transponderIrDMABuffer.length := by
  simp only [wrote, List.length_append, List.length_drop]
  omega

/-- The encoder returns a state whose first 400 buffer entries are the reference frame of the
code and whose cursor is 400; the entries from 400 on, the flag and the wait counter are those
of the initial state. -/
theorem encoder_result (fuel : Nat) (transponderData : List Nat) (s : State) (b : Nat)
    (hb : transponderData[5]? = some b) (hfuel : 401 ≤ fuel)
    (hcap : s.transponderIrDMABuffer.length = TRANSPONDER_DMA_BUFFER_SIZE) :
    ∃ s1, updateTransponderDMABuffer_erlt fuel transponderData s = .ok s1 ∧
      s1.transponderIrDMABuffer.take 400 = referenceFrame (erltIrCodeOf b) ∧
      s1.transponderIrDMABuffer.drop 400 = s.transponderIrDMABuffer.drop 400 ∧
      s1.transponderIrDMABuffer.length = s.transponderIrDMABuffer.length ∧
      s1.dmaBufferOffset = 400 ∧
      s1.transponderIrDataTransferInProgress = s.transponderIrDataTransferInProgress ∧
      s1.waitCounter = s.waitCounter := by
  have hlen := referenceFrame_length _ (erltIrCodeOf_lt b)
  have hcap720 : s.transponderIrDMABuffer.length = 720 := hcap
  refine ⟨_, encoder_eq fuel transponderData s b hb hfuel hcap, ?_, ?_, ?_, hlen, rfl, rfl⟩
  · have := wrote_take s (referenceFrame (erltIrCodeOf b))
    rwa [hlen] at this
  · have := wrote_drop s (referenceFrame (erltIrCodeOf b))
    rwa [hlen] at this
  · exact wrote_length s _ (by omega)

set_option maxRecDepth 100000 in
theorem referenceFrame_63 :
    referenceFrame 63 = List.replicate 5 50 ++ List.replicate 5 0 ++ List.replicate 13 50 ++
      List.replicate 13 0 ++ List.replicate 13 50 ++ List.replicate 13 0 ++
      List.replicate 13 50 ++ List.replicate 13 0 ++ List.replicate 5 50 ++
      List.replicate 307 0 ∧
    runLengths (referenceFrame 63) = [(50, 5), (0, 5), (50, 13), (0, 13), (50, 13), (0, 13),
      (50, 13), (0, 13), (50, 5), (0, 307)] := by
  decide

set_option maxRecDepth 100000 in
theorem referenceFrame_0 :
    referenceFrame 0 = List.replicate 5 50 ++ List.replicate 5 0 ++ List.replicate 5 50 ++
      List.replicate 5 0 ++ List.replicate 5 50 ++ List.replicate 5 0 ++
      List.replicate 5 50 ++ List.replicate 5 0 ++ List.replicate 5 50 ++
      List.replicate 355 0 ∧
    runLengths (referenceFrame 0) = [(50, 5), (0, 5), (50, 5), (0, 5), (50, 5), (0, 5),
      (50, 5), (0, 5), (50, 5), (0, 355)] := by
  decide

/-- The busy-wait returns only from a state whose flag is 0, and then changes nothing. -/
theorem wait_ok (fuel : Nat) : ∀ (s s1 : State),
    transponderIrWaitForTransmitComplete fuel s = .ok s1 →
      s.transponderIrDataTransferInProgress = 0 ∧ s1 = s := by
  induction fuel with
  | zero => intro s s1 h; simp [transponderIrWaitForTransmitComplete] at h
  | succ f ih =>
    intro s s1 h
    by_cases hflag : s.transponderIrDataTransferInProgress = 0
    · simp only [transponderIrWaitForTransmitComplete, hflag, ne_eq, not_true_eq_false,
        if_false, Except.ok.injEq] at h
      exact ⟨hflag, h.symm⟩
    · simp only [transponderIrWaitForTransmitComplete, ne_eq, hflag, not_false_eq_true,
        if_true] at h
      exact absurd (ih _ _ h).1 hflag

/-- From a state whose flag is 0 the busy-wait returns at once. -/
theorem wait_idle (fuel : Nat) (s : State) (hidle : s.transponderIrDataTransferInProgress = 0)
    (hfuel : 1 ≤ fuel) : transponderIrWaitForTransmitComplete fuel s = .ok s := by
  obtain ⟨f, rfl⟩ : ∃ f, fuel = f + 1 := ⟨fuel - 1, by omega⟩
  simp [transponderIrWaitForTransmitComplete, hidle]

/-! ## The claims -/

/-- C1: for every id of at least 6 bytes and every initial state with a buffer of 720 entries,
the encoder (second body of `updateTransponderDMABuffer_erlt`) returns, and entries 0..399 of
the buffer are then the reference frame of the code `(~id[5]) & 63`: 5 on, 5 off, the six data
runs (13 long for a 1-bit and 5 for a 0-bit, most significant bit first, on for even and off
for odd positions), the parity run (on, 5 for an even and 13 for an odd number of 1-bits) and
off entries up to index 399. -/
theorem C1_reference_frame (fuel : Nat) (transponderData : List Nat) (s : State)
    (hid : 6 ≤ transponderData.length) (hbytes : ∀ x ∈ transponderData, x < 256)
    (hcap : s.transponderIrDMABuffer.length = TRANSPONDER_DMA_BUFFER_SIZE)
    (hfuel : 401 ≤ fuel) :
    ∃ s1, updateTransponderDMABuffer_erlt fuel transponderData s = .ok s1 ∧
      s1.transponderIrDMABuffer.take 400 = referenceFrame (specCode transponderData[5]) := by
  have hb : transponderData[5]? = some transponderData[5] := List.getElem?_eq_getElem (by omega)
  have hlt : transponderData[5] < 256 := hbytes _ (List.getElem_mem _)
  refine ⟨_, encoder_eq fuel transponderData s _ hb hfuel hcap, ?_⟩
  rw [erltIrCodeOf_eq_specCode _ hlt]
  have hlen := referenceFrame_length (specCode transponderData[5])
    (by rw [← erltIrCodeOf_eq_specCode _ hlt]; exact erltIrCodeOf_lt _)
  simp only [wrote]
  rw [List.take_append_of_le_length (by omega), ← hlen, List.take_length]

/-- Witness of C1: the all-zero id of six bytes, encoded from the initial state. -/
theorem C1_reference_frame_witness :
    ∃ s1, updateTransponderDMABuffer_erlt 401 [0, 0, 0, 0, 0, 0] initialState = .ok s1 ∧
      s1.transponderIrDMABuffer.take 400 = referenceFrame (specCode 0) :=
  C1_reference_frame 401 [0, 0, 0, 0, 0, 0] initialState (by decide) (by decide)
    (by simp [initialState]) (by decide)

/-- C2: for every id of at least 6 bytes and every initial state (any buffer content of 720
entries, any cursor), the encoder returns and leaves the cursor `dmaBufferOffset` at exactly
400. -/
theorem C2_frame_length (fuel : Nat) (transponderData : List Nat) (s : State)
    (hid : 6 ≤ transponderData.length)
    (hcap : s.transponderIrDMABuffer.length = TRANSPONDER_DMA_BUFFER_SIZE)
    (hfuel : 401 ≤ fuel) :
    ∃ s1, updateTransponderDMABuffer_erlt fuel transponderData s = .ok s1 ∧
      s1.dmaBufferOffset = 400 := by
  have hb : transponderData[5]? = some transponderData[5] := List.getElem?_eq_getElem (by omega)
  refine ⟨_, encoder_eq fuel transponderData s _ hb hfuel hcap, ?_⟩
  exact referenceFrame_length _ (erltIrCodeOf_lt _)

/-- Witness of C2: an id with byte 5 equal to 255, encoded from a state whose cursor is 719. -/
theorem C2_frame_length_witness :
    ∃ s1, updateTransponderDMABuffer_erlt 401 [1, 2, 3, 4, 5, 255]
        { initialState with dmaBufferOffset := 719 } = .ok s1 ∧
      s1.dmaBufferOffset = 400 :=
  C2_frame_length 401 [1, 2, 3, 4, 5, 255] { initialState with dmaBufferOffset := 719 }
    (by decide) (by simp [initialState]) (by decide)

/-- C3: for every id of at least 6 bytes and every initial state with a buffer of 720 entries,
the encoder returns a state (the out-of-bounds error does not occur); it performs 400 buffer
stores, each at an index strictly below 400; every value it assigns to the cursor is at most
400, as is the final cursor; and 400 is at most the capacity 720. -/
theorem C3_no_overflow (fuel : Nat) (transponderData : List Nat) (s : State)
    (hid : 6 ≤ transponderData.length)
    (hcap : s.transponderIrDMABuffer.length = TRANSPONDER_DMA_BUFFER_SIZE)
    (hfuel : 401 ≤ fuel) :
    ∃ s1 events, updateTransponderDMABuffer_erlt fuel transponderData s = .ok s1 ∧
      s1.trace = events ++ s.trace ∧
      (storeIndices events).length = 400 ∧
      (∀ i ∈ storeIndices events, i < 400) ∧
      (∀ c ∈ cursorValues events, c ≤ 400) ∧
      s1.dmaBufferOffset ≤ 400 ∧
      400 ≤ TRANSPONDER_DMA_BUFFER_SIZE := by
  have hb : transponderData[5]? = some transponderData[5] := List.getElem?_eq_getElem (by omega)
  have hlen := referenceFrame_length _ (erltIrCodeOf_lt transponderData[5])
  refine ⟨_, (eventsOf 0 (referenceFrame (erltIrCodeOf transponderData[5]))).reverse
      ++ [Event.cursor 0], encoder_eq fuel transponderData s _ hb hfuel hcap, ?_, ?_, ?_, ?_, ?_, ?_⟩
  · simp [wrote]
  · have := storeIndices_eventsOf (referenceFrame (erltIrCodeOf transponderData[5])) 0
    simp only [storeIndices] at this ⊢
    simp [List.filterMap_append, List.filterMap_reverse, this, hlen]
  · intro i hi
    have := storeIndices_eventsOf (referenceFrame (erltIrCodeOf transponderData[5])) 0
    simp only [storeIndices] at this hi
    simp only [List.filterMap_append, List.filterMap_reverse, this, hlen] at hi
    simp [List.mem_range'] at hi
    omega
  · intro c hc
    have := cursorValues_eventsOf (referenceFrame (erltIrCodeOf transponderData[5])) 0
    simp only [cursorValues] at this hc
    simp only [List.filterMap_append, List.filterMap_reverse, this, hlen] at hc
    simp [List.mem_range'] at hc
    omega
  · exact Nat.le_of_eq hlen
  · decide

/-- Witness of C3: an id with byte 5 equal to 21, encoded from the initial state. -/
theorem C3_no_overflow_witness :
    ∃ s1 events, updateTransponderDMABuffer_erlt 401 [0, 0, 0, 0, 0, 21] initialState = .ok s1 ∧
      s1.trace = events ++ initialState.trace ∧
      (storeIndices events).length = 400 ∧
      (∀ i ∈ storeIndices events, i < 400) ∧
      (∀ c ∈ cursorValues events, c ≤ 400) ∧
      s1.dmaBufferOffset ≤ 400 ∧
      400 ≤ TRANSPONDER_DMA_BUFFER_SIZE :=
  C3_no_overflow 401 [0, 0, 0, 0, 0, 21] initialState (by decide) (by simp [initialState])
    (by decide)

/-- C4: for every id of at least 6 bytes, the frame the encoder writes has ten runs, of which
the six data runs and the parity run each last `NUM_PERIODS_0` or `NUM_PERIODS_1` units, and
the exclusive or of the seven bits these runs stand for (1 for `NUM_PERIODS_1`) is 0. -/
theorem C4_parity (fuel : Nat) (transponderData : List Nat) (s : State)
    (hid : 6 ≤ transponderData.length)
    (hcap : s.transponderIrDMABuffer.length = TRANSPONDER_DMA_BUFFER_SIZE)
    (hfuel : 401 ≤ fuel) :
    ∃ s1, updateTransponderDMABuffer_erlt fuel transponderData s = .ok s1 ∧
      (runLengths (s1.transponderIrDMABuffer.take 400)).length = 10 ∧
      (dataAndParityRuns (s1.transponderIrDMABuffer.take 400)).length = 7 ∧
      (∀ r ∈ dataAndParityRuns (s1.transponderIrDMABuffer.take 400),
        r.2 = NUM_PERIODS_0 ∨ r.2 = NUM_PERIODS_1) ∧
      ((dataAndParityRuns (s1.transponderIrDMABuffer.take 400)).map impliedBit).foldl
        xor false = false := by
  have hb : transponderData[5]? = some transponderData[5] := List.getElem?_eq_getElem (by omega)
  obtain ⟨s1, hs1, htake, -⟩ := encoder_result fuel transponderData s _ hb hfuel hcap
  refine ⟨s1, hs1, ?_⟩
  rw [htake]
  exact parity_referenceFrame _ (erltIrCodeOf_lt _)

/-- Witness of C4: an id with byte 5 equal to 42 (three 1-bits in the code), encoded from the
initial state. -/
theorem C4_parity_witness :
    ∃ s1, updateTransponderDMABuffer_erlt 401 [9, 9, 9, 9, 9, 42] initialState = .ok s1 ∧
      (runLengths (s1.transponderIrDMABuffer.take 400)).length = 10 ∧
      (dataAndParityRuns (s1.transponderIrDMABuffer.take 400)).length = 7 ∧
      (∀ r ∈ dataAndParityRuns (s1.transponderIrDMABuffer.take 400),
        r.2 = NUM_PERIODS_0 ∨ r.2 = NUM_PERIODS_1) ∧
      ((dataAndParityRuns (s1.transponderIrDMABuffer.take 400)).map impliedBit).foldl
        xor false = false :=
  C4_parity 401 [9, 9, 9, 9, 9, 42] initialState (by decide) (by simp [initialState])
    (by decide)

/-- C5: for all ids `a`, `b` of at least 6 bytes whose bytes 5 agree on their low 6 bits, and
all initial states `s`, `t` (any buffer contents of 720 entries, any cursors), the encoder
returns from both, with the same first 400 buffer entries and the same final cursor; and
encoding `a` once more from the state reached gives again these entries and this cursor. -/
theorem C5_depends_on_low_bits (fuel1 fuel2 : Nat) (a b : List Nat) (s t : State)
    (ha : 6 ≤ a.length) (hb : 6 ≤ b.length)
    (habytes : ∀ x ∈ a, x < 256) (hbbytes : ∀ x ∈ b, x < 256)
    (hlow : a[5] &&& 63 = b[5] &&& 63)
    (hs : s.transponderIrDMABuffer.length = TRANSPONDER_DMA_BUFFER_SIZE)
    (ht : t.transponderIrDMABuffer.length = TRANSPONDER_DMA_BUFFER_SIZE)
    (hfuel1 : 401 ≤ fuel1) (hfuel2 : 401 ≤ fuel2) :
    ∃ s1 t1 s2, updateTransponderDMABuffer_erlt fuel1 a s = .ok s1 ∧
      updateTransponderDMABuffer_erlt fuel2 b t = .ok t1 ∧
      s1.transponderIrDMABuffer.take 400 = t1.transponderIrDMABuffer.take 400 ∧
      s1.dmaBufferOffset = t1.dmaBufferOffset ∧
      updateTransponderDMABuffer_erlt fuel2 a s1 = .ok s2 ∧
      s2.transponderIrDMABuffer.take 400 = s1.transponderIrDMABuffer.take 400 ∧
      s2.dmaBufferOffset = s1.dmaBufferOffset := by
  have ha5 : a[5]? = some a[5] := List.getElem?_eq_getElem (by omega)
  have hb5 : b[5]? = some b[5] := List.getElem?_eq_getElem (by omega)
  have hcode : erltIrCodeOf a[5] = erltIrCodeOf b[5] := by
    rw [erltIrCodeOf_low_bits _ (habytes _ (List.getElem_mem _)),
      erltIrCodeOf_low_bits _ (hbbytes _ (List.getElem_mem _)), hlow]
  obtain ⟨s1, hs1, hstake, -, hslen, hscur, -⟩ := encoder_result fuel1 a s _ ha5 hfuel1 hs
  obtain ⟨t1, ht1, httake, -, -, htcur, -⟩ := encoder_result fuel2 b t _ hb5 hfuel2 ht
  obtain ⟨s2, hs2, hs2take, -, -, hs2cur, -⟩ :=
    encoder_result fuel2 a s1 _ ha5 hfuel2 (hslen.trans hs)
  exact ⟨s1, t1, s2, hs1, ht1, by rw [hstake, httake, hcode], by rw [hscur, htcur], hs2,
    by rw [hs2take, hstake], by rw [hs2cur, hscur]⟩

/-- Witness of C5: bytes 5 equal to 5 and 197 agree on their low 6 bits; the two ids are encoded
from the initial state and from a state with another cursor and flag. -/
theorem C5_depends_on_low_bits_witness :
    ∃ s1 t1 s2, updateTransponderDMABuffer_erlt 401 [0, 0, 0, 0, 0, 5] initialState = .ok s1 ∧
      updateTransponderDMABuffer_erlt 500 [7, 7, 7, 7, 7, 197, 7]
        { initialState with dmaBufferOffset := 33, transponderIrDataTransferInProgress := 1 }
        = .ok t1 ∧
      s1.transponderIrDMABuffer.take 400 = t1.transponderIrDMABuffer.take 400 ∧
      s1.dmaBufferOffset = t1.dmaBufferOffset ∧
      updateTransponderDMABuffer_erlt 500 [0, 0, 0, 0, 0, 5] s1 = .ok s2 ∧
      s2.transponderIrDMABuffer.take 400 = s1.transponderIrDMABuffer.take 400 ∧
      s2.dmaBufferOffset = s1.dmaBufferOffset :=
  C5_depends_on_low_bits 401 500 [0, 0, 0, 0, 0, 5] [7, 7, 7, 7, 7, 197, 7] initialState
    { initialState with dmaBufferOffset := 33, transponderIrDataTransferInProgress := 1 }
    (by decide) (by decide) (by decide) (by decide) (by decide) (by simp [initialState])
    (by simp [initialState]) (by decide) (by decide)

/-- C6: for an id with `id[5] = 0` the code is 63, and the encoder returns with entries 0..399
equal to 5 x 50, 5 x 0, 13 x 50, 13 x 0, 13 x 50, 13 x 0, 13 x 50, 13 x 0, 5 x 50, 307 x 0,
that is the (level, duration) sequence on x5, off x5, on x13, off x13, on x13, off x13, on x13,
off x13, on x5, off x307, and with the cursor at 400. -/
theorem C6_scenario_byte5_zero (fuel : Nat) (transponderData : List Nat) (s : State)
    (h5 : transponderData[5]? = some 0)
    (hcap : s.transponderIrDMABuffer.length = TRANSPONDER_DMA_BUFFER_SIZE)
    (hfuel : 401 ≤ fuel) :
    erltIrCodeOf 0 = 63 ∧
    ∃ s1, updateTransponderDMABuffer_erlt fuel transponderData s = .ok s1 ∧
      s1.transponderIrDMABuffer.take 400 =
        List.replicate 5 50 ++ List.replicate 5 0 ++ List.replicate 13 50 ++
        List.replicate 13 0 ++ List.replicate 13 50 ++ List.replicate 13 0 ++
        List.replicate 13 50 ++ List.replicate 13 0 ++ List.replicate 5 50 ++
        List.replicate 307 0 ∧
      runLengths (s1.transponderIrDMABuffer.take 400) =
        [(50, 5), (0, 5), (50, 13), (0, 13), (50, 13), (0, 13), (50, 13), (0, 13), (50, 5),
          (0, 307)] ∧
      s1.dmaBufferOffset = 400 := by
  have hcode : erltIrCodeOf 0 = 63 := by decide
  obtain ⟨s1, hs1, htake, -, -, hcur, -⟩ := encoder_result fuel transponderData s 0 h5 hfuel hcap
  refine ⟨hcode, s1, hs1, ?_, ?_, hcur⟩
  · rw [htake, hcode]; exact referenceFrame_63.1
  · rw [htake, hcode]; exact referenceFrame_63.2

/-- Witness of C6: the id `1, 2, 3, 4, 5, 0`, encoded from the initial state. -/
theorem C6_scenario_byte5_zero_witness :
    erltIrCodeOf 0 = 63 ∧
    ∃ s1, updateTransponderDMABuffer_erlt 401 [1, 2, 3, 4, 5, 0] initialState = .ok s1 ∧
      s1.transponderIrDMABuffer.take 400 =
        List.replicate 5 50 ++ List.replicate 5 0 ++ List.replicate 13 50 ++
        List.replicate 13 0 ++ List.replicate 13 50 ++ List.replicate 13 0 ++
        List.replicate 13 50 ++ List.replicate 13 0 ++ List.replicate 5 50 ++
        List.replicate 307 0 ∧
      runLengths (s1.transponderIrDMABuffer.take 400) =
        [(50, 5), (0, 5), (50, 13), (0, 13), (50, 13), (0, 13), (50, 13), (0, 13), (50, 5),
          (0, 307)] ∧
      s1.dmaBufferOffset = 400 :=
  C6_scenario_byte5_zero 401 [1, 2, 3, 4, 5, 0] initialState (by decide)
    (by simp [initialState]) (by decide)

/-- C7: for an id with `id[5] = 63` the code is 0, and the encoder returns with entries 0..44
alternating in blocks of five between 50 and 0, starting with 50, and entries 45..399 equal to
0, that is the (level, duration) sequence on x5, off x5, on x5, off x5, on x5, off x5, on x5,
off x5, on x5, off x355, and with the cursor at 400. -/
theorem C7_scenario_byte5_63 (fuel : Nat) (transponderData : List Nat) (s : State)
    (h5 : transponderData[5]? = some 63)
    (hcap : s.transponderIrDMABuffer.length = TRANSPONDER_DMA_BUFFER_SIZE)
    (hfuel : 401 ≤ fuel) :
    erltIrCodeOf 63 = 0 ∧
    ∃ s1, updateTransponderDMABuffer_erlt fuel transponderData s = .ok s1 ∧
      s1.transponderIrDMABuffer.take 400 =
        List.replicate 5 50 ++ List.replicate 5 0 ++ List.replicate 5 50 ++
        List.replicate 5 0 ++ List.replicate 5 50 ++ List.replicate 5 0 ++
        List.replicate 5 50 ++ List.replicate 5 0 ++ List.replicate 5 50 ++
        List.replicate 355 0 ∧
      runLengths (s1.transponderIrDMABuffer.take 400) =
        [(50, 5), (0, 5), (50, 5), (0, 5), (50, 5), (0, 5), (50, 5), (0, 5), (50, 5),
          (0, 355)] ∧
      s1.dmaBufferOffset = 400 := by
  have hcode : erltIrCodeOf 63 = 0 := by decide
  obtain ⟨s1, hs1, htake, -, -, hcur, -⟩ := encoder_result fuel transponderData s 63 h5 hfuel hcap
  refine ⟨hcode, s1, hs1, ?_, ?_, hcur⟩
  · rw [htake, hcode]; exact referenceFrame_0.1
  · rw [htake, hcode]; exact referenceFrame_0.2

/-- Witness of C7: the id `1, 2, 3, 4, 5, 63`, encoded from the initial state. -/
theorem C7_scenario_byte5_63_witness :
    erltIrCodeOf 63 = 0 ∧
    ∃ s1, updateTransponderDMABuffer_erlt 401 [1, 2, 3, 4, 5, 63] initialState = .ok s1 ∧
      s1.transponderIrDMABuffer.take 400 =
        List.replicate 5 50 ++ List.replicate 5 0 ++ List.replicate 5 50 ++
        List.replicate 5 0 ++ List.replicate 5 50 ++ List.replicate 5 0 ++
        List.replicate 5 50 ++ List.replicate 5 0 ++ List.replicate 5 50 ++
        List.replicate 355 0 ∧
      runLengths (s1.transponderIrDMABuffer.take 400) =
        [(50, 5), (0, 5), (50, 5), (0, 5), (50, 5), (0, 5), (50, 5), (0, 5), (50, 5),
          (0, 355)] ∧
      s1.dmaBufferOffset = 400 :=
  C7_scenario_byte5_63 401 [1, 2, 3, 4, 5, 63] initialState (by decide)
    (by simp [initialState]) (by decide)

/-- C8: for every id of at least 6 bytes and every initial state with a buffer of 720 entries,
the encoder returns a state in which every buffer entry at an index from 400 on is what it was
before the call, the buffer has its length of before, and the transfer-in-progress flag and the
wait counter are unchanged: only entries 0..399 and the cursor can differ. -/
theorem C8_frame_effect (fuel : Nat) (transponderData : List Nat) (s : State)
    (hid : 6 ≤ transponderData.length)
    (hcap : s.transponderIrDMABuffer.length = TRANSPONDER_DMA_BUFFER_SIZE)
    (hfuel : 401 ≤ fuel) :
    ∃ s1, updateTransponderDMABuffer_erlt fuel transponderData s = .ok s1 ∧
      (∀ k, 400 ≤ k → s1.transponderIrDMABuffer[k]? = s.transponderIrDMABuffer[k]?) ∧
      s1.transponderIrDMABuffer.length = s.transponderIrDMABuffer.length ∧
      s1.transponderIrDataTransferInProgress = s.transponderIrDataTransferInProgress ∧
      s1.waitCounter = s.waitCounter := by
  have hb : transponderData[5]? = some transponderData[5] := List.getElem?_eq_getElem (by omega)
  obtain ⟨s1, hs1, -, hdrop, hlen, -, hflag, hwait⟩ :=
    encoder_result fuel transponderData s _ hb hfuel hcap
  refine ⟨s1, hs1, ?_, hlen, hflag, hwait⟩
  intro k hk
  have hk400 : 400 + (k - 400) = k := by omega
  have h1 : (s1.transponderIrDMABuffer.drop 400)[k - 400]? = s1.transponderIrDMABuffer[k]? := by
    rw [List.getElem?_drop, hk400]
  have h2 : (s.transponderIrDMABuffer.drop 400)[k - 400]? = s.transponderIrDMABuffer[k]? := by
    rw [List.getElem?_drop, hk400]
  rw [← h1, ← h2, hdrop]

/-- Witness of C8: an id with byte 5 equal to 0, encoded from a state whose buffer holds 7
everywhere and whose flag is 1. -/
theorem C8_frame_effect_witness :
    ∃ s1, updateTransponderDMABuffer_erlt 401 [0, 0, 0, 0, 0, 0]
        { initialState with
          transponderIrDMABuffer := List.replicate 720 7
          transponderIrDataTransferInProgress := 1 } = .ok s1 ∧
      (∀ k, 400 ≤ k → s1.transponderIrDMABuffer[k]? = (List.replicate 720 7)[k]?) ∧
      s1.transponderIrDMABuffer.length = (List.replicate 720 7).length ∧
      s1.transponderIrDataTransferInProgress = 1 ∧
      s1.waitCounter = 0 :=
  C8_frame_effect 401 [0, 0, 0, 0, 0, 0]
    { initialState with
      transponderIrDMABuffer := List.replicate 720 7
      transponderIrDataTransferInProgress := 1 }
    (by decide) (List.length_replicate 720 7) (by decide)

/-- Entering an update from a state whose flag is 0 and running on to its return gives the
state that `transponderIrUpdateData` returns. -/
theorem microRun_update_idle (fuel : Nat) (transponderData : List Nat) (s : State)
    (hidle : s.transponderIrDataTransferInProgress = 0) (hfuel : 1 ≤ fuel) :
    microRun fuel [Move.callUpdate transponderData, Move.proceed]
        { state := s, control := Control.outside }
      = (transponderIrUpdateData fuel transponderData s).map
          fun s1 => { state := s1, control := Control.outside } := by
  simp only [microRun, microStep, transponderIrUpdateData, wait_idle fuel s hidle hfuel, hidle,
    ne_eq, not_true_eq_false, if_false]
  cases updateTransponderDMABuffer fuel transponderData s <;> rfl

/-- Entering a transmit from a state whose flag is 0 and running on to its return gives the
state that `transponderIrTransmit` returns. -/
theorem microRun_transmit_idle (fuel : Nat) (s : State)
    (hidle : s.transponderIrDataTransferInProgress = 0) (hfuel : 1 ≤ fuel) :
    microRun fuel [Move.callTransmit, Move.proceed] { state := s, control := Control.outside }
      = (transponderIrTransmit fuel s).map
          fun s1 => { state := s1, control := Control.outside } := by
  simp only [microRun, microStep, transponderIrTransmit, wait_idle fuel s hidle hfuel, hidle,
    ne_eq, not_true_eq_false, if_false]
  rfl

/-- An update that waits while the flag is set writes its frame once the completion signal has
arrived: the moves `proceed`, `completion`, `proceed` from inside the wait end outside the call
with the reference frame in entries 0..399. -/
theorem pending_update_writes (fuel : Nat) (transponderData : List Nat) (s : State)
    (hid : 6 ≤ transponderData.length)
    (hbusy : s.transponderIrDataTransferInProgress ≠ 0)
    (hcap : s.transponderIrDMABuffer.length = TRANSPONDER_DMA_BUFFER_SIZE)
    (hfuel : 401 ≤ fuel) :
    ∃ s1, microRun fuel [Move.proceed, Move.completion, Move.proceed]
        { state := s, control := Control.updateWaiting transponderData }
          = .ok { state := s1, control := Control.outside } ∧
      s1.transponderIrDMABuffer.take 400 = referenceFrame (erltIrCodeOf transponderData[5]) := by
  have hb : transponderData[5]? = some transponderData[5] := List.getElem?_eq_getElem (by omega)
  obtain ⟨s1, hs1, htake, -⟩ := encoder_result fuel transponderData
    (transferCompleteHandler (waitIteration s)) _ hb hfuel hcap
  refine ⟨s1, ?_, htake⟩
  have hidle : (transferCompleteHandler (waitIteration s)).transponderIrDataTransferInProgress
      = 0 := rfl
  simp only [microRun, microStep, ne_eq, hbusy, not_false_eq_true, if_true, hidle,
    not_true_eq_false, if_false, updateTransponderDMABuffer, hs1]

/-- C9: in every configuration reached from the initial one by moves of the transmitter (the
caller entering update, transmit or isReady, the caller running on inside a call from a test of
the busy-wait loop, the completion signal), a move made while the transfer-in-progress flag is
not 0 leaves the whole buffer as it is, also when an update or a transmit has been entered and
is waiting; so the buffer changes only in moves made while the flag is 0. -/
theorem C9_single_writer (fuel1 fuel2 : Nat) (history : List Move) (m : Move)
    (c c1 : Config) (_ : microRun fuel1 history initialConfig = .ok c)
    (hbusy : c.state.transponderIrDataTransferInProgress ≠ 0)
    (hstep : microStep fuel2 m c = .ok c1) :
    c1.state.transponderIrDMABuffer = c.state.transponderIrDMABuffer := by
  obtain ⟨s, control⟩ := c
  have hbusy1 : s.transponderIrDataTransferInProgress ≠ 0 := hbusy
  cases m <;> cases control <;>
    simp only [microStep, ne_eq, hbusy1, not_false_eq_true, if_true, Except.ok.injEq]
      at hstep <;>
    rw [← hstep] <;> rfl

/-- Witness of C9: a transmit has run to its return, so the flag is 1, and an update has been
entered and is waiting; its next move is an iteration of the busy-wait, which leaves the buffer
as it is. -/
theorem C9_single_writer_witness :
    microRun 1 [Move.callTransmit, Move.proceed, Move.callUpdate [0, 0, 0, 0, 0, 7]]
        initialConfig
      = .ok { state := transponderIrDMAEnable
                { resetCursor initialState with transponderIrDataTransferInProgress := 1 }
              control := Control.updateWaiting [0, 0, 0, 0, 0, 7] } ∧
    (waitIteration (transponderIrDMAEnable
        { resetCursor initialState with
          transponderIrDataTransferInProgress := 1 })).transponderIrDMABuffer
      = initialState.transponderIrDMABuffer :=
  ⟨rfl, C9_single_writer 1 1
    [Move.callTransmit, Move.proceed, Move.callUpdate [0, 0, 0, 0, 0, 7]] Move.proceed
    { state := transponderIrDMAEnable
        { resetCursor initialState with transponderIrDataTransferInProgress := 1 }
      control := Control.updateWaiting [0, 0, 0, 0, 0, 7] }
    { state := waitIteration (transponderIrDMAEnable
        { resetCursor initialState with transponderIrDataTransferInProgress := 1 })
      control := Control.updateWaiting [0, 0, 0, 0, 0, 7] }
    rfl (by decide) rfl⟩

/-- C10: from every state whose transfer-in-progress flag is 0, `transponderIrTransmit`
returns a state whose flag is 1, whose cursor `dmaBufferOffset` is 0 and whose buffer is
unchanged; the playback hardware has been enabled after the cursor was reset. -/
theorem C10_transmit (fuel : Nat) (s : State)
    (hidle : s.transponderIrDataTransferInProgress = 0) (hfuel : 1 ≤ fuel) :
    ∃ s1, transponderIrTransmit fuel s = .ok s1 ∧
      s1.transponderIrDataTransferInProgress = 1 ∧
      s1.dmaBufferOffset = 0 ∧
      s1.transponderIrDMABuffer = s.transponderIrDMABuffer ∧
      s1.trace = Event.dmaEnable :: Event.cursor 0 :: s.trace := by
  refine ⟨transponderIrDMAEnable
    { resetCursor s with transponderIrDataTransferInProgress := 1 }, ?_, rfl, rfl, rfl, rfl⟩
  simp only [transponderIrTransmit, wait_idle fuel s hidle hfuel]

/-- Witness of C10: transmit from a state with flag 0, cursor 400 and a buffer holding 50
everywhere. -/
theorem C10_transmit_witness :
    ∃ s1, transponderIrTransmit 1
        { initialState with
          transponderIrDMABuffer := List.replicate 720 50
          dmaBufferOffset := 400 } = .ok s1 ∧
      s1.transponderIrDataTransferInProgress = 1 ∧
      s1.dmaBufferOffset = 0 ∧
      s1.transponderIrDMABuffer = List.replicate 720 50 ∧
      s1.trace = Event.dmaEnable :: Event.cursor 0 :: [] :=
  C10_transmit 1
    { initialState with
      transponderIrDMABuffer := List.replicate 720 50
      dmaBufferOffset := 400 }
    rfl (by decide)

/-- The encoder keeps the flag and the capacity of the buffer. -/
theorem update_idle (fuel : Nat) (transponderData : List Nat) (s : State)
    (hid : 6 ≤ transponderData.length)
    (hidle : s.transponderIrDataTransferInProgress = 0)
    (hcap : s.transponderIrDMABuffer.length = TRANSPONDER_DMA_BUFFER_SIZE)
    (hfuel : 401 ≤ fuel) :
    ∃ s1, transponderIrUpdateData fuel transponderData s = .ok s1 ∧
      updateTransponderDMABuffer_erlt fuel transponderData s = .ok s1 ∧
      s1.transponderIrDataTransferInProgress = 0 ∧
      s1.transponderIrDMABuffer.length = TRANSPONDER_DMA_BUFFER_SIZE := by
  have hb : transponderData[5]? = some transponderData[5] := List.getElem?_eq_getElem (by omega)
  obtain ⟨s1, hs1, -, -, hlen, -, hflag, -⟩ :=
    encoder_result fuel transponderData s _ hb hfuel hcap
  refine ⟨s1, ?_, hs1, hflag.trans hidle, hlen.trans hcap⟩
  simp only [transponderIrUpdateData, wait_idle fuel s hidle (by omega),
    updateTransponderDMABuffer, hs1]

/-- Any number of update calls from an idle state returns to an idle state. -/
theorem run_updates (fuel : Nat) (hfuel : 401 ≤ fuel) (ids : List (List Nat)) :
    ∀ s : State, (∀ d ∈ ids, 6 ≤ d.length) → s.transponderIrDataTransferInProgress = 0 →
      s.transponderIrDMABuffer.length = TRANSPONDER_DMA_BUFFER_SIZE →
      ∃ s1, run fuel (ids.map Action.update) s = .ok s1 ∧
        s1.transponderIrDataTransferInProgress = 0 ∧
        s1.transponderIrDMABuffer.length = TRANSPONDER_DMA_BUFFER_SIZE := by
  induction ids with
  | nil => intro s _ hidle hcap; exact ⟨s, rfl, hidle, hcap⟩
  | cons d rest ih =>
    intro s hids hidle hcap
    obtain ⟨s1, hs1, -, hidle1, hcap1⟩ :=
      update_idle fuel d s (hids d (List.mem_cons_self _ _)) hidle hcap hfuel
    obtain ⟨s2, hs2, hidle2, hcap2⟩ :=
      ih s1 (fun e he => hids e (List.mem_cons_of_mem _ he)) hidle1 hcap1
    refine ⟨s2, ?_, hidle2, hcap2⟩
    simp only [List.map_cons, run, step, hs1, hs2]

/-- Calls of `isReady` and iterations of the busy-wait keep the flag. -/
theorem run_waiting (fuel : Nat) (waiting : List Action) :
    ∀ s : State, (∀ a ∈ waiting, a = Action.isReady ∨ a = Action.waitSpin) →
      ∃ s1, run fuel waiting s = .ok s1 ∧
        s1.transponderIrDataTransferInProgress = s.transponderIrDataTransferInProgress := by
  induction waiting with
  | nil => intro s _; exact ⟨s, rfl, rfl⟩
  | cons a rest ih =>
    intro s hw
    have hrest : ∀ e ∈ rest, e = Action.isReady ∨ e = Action.waitSpin :=
      fun e he => hw e (List.mem_cons_of_mem _ he)
    rcases hw a (List.mem_cons_self _ _) with rfl | rfl
    · obtain ⟨s1, hs1, hflag⟩ := ih s hrest
      exact ⟨s1, by simp only [run, step, hs1], hflag⟩
    · obtain ⟨s1, hs1, hflag⟩ :=
        ih (if s.transponderIrDataTransferInProgress ≠ 0 then waitIteration s else s) hrest
      refine ⟨s1, by simp only [run, step, hs1], hflag.trans ?_⟩
      split <;> rfl

/-- C11: for every state, whatever the value of the transfer-in-progress flag,
`isTransponderIrReady` returns true if and only if the flag is 0; as a step of the transmitter
it returns the state it was called in, so flag, cursor and buffer are unchanged. -/
theorem C11_isReady_observer (fuel : Nat) (s : State) :
    (isTransponderIrReady s = true ↔ s.transponderIrDataTransferInProgress = 0) ∧
    step fuel Action.isReady s = .ok s := by
  refine ⟨?_, rfl⟩
  simp [isTransponderIrReady]

/-- C12: in the initial state `isTransponderIrReady` returns true, and it returns true in the
state reached after any number of update calls; in the state in which a following transmit
returns it returns false, and it still returns false after any further `isReady` calls and
busy-wait iterations; after the completion step it returns true. -/
theorem C12_readiness (fuel : Nat) (ids : List (List Nat)) (waiting : List Action)
    (hids : ∀ d ∈ ids, 6 ≤ d.length)
    (hwaiting : ∀ a ∈ waiting, a = Action.isReady ∨ a = Action.waitSpin)
    (hfuel : 401 ≤ fuel) :
    isTransponderIrReady initialState = true ∧
    ∃ s1 s2 s3, run fuel (ids.map Action.update) initialState = .ok s1 ∧
      isTransponderIrReady s1 = true ∧
      step fuel Action.transmit s1 = .ok s2 ∧
      isTransponderIrReady s2 = false ∧
      run fuel waiting s2 = .ok s3 ∧
      isTransponderIrReady s3 = false ∧
      isTransponderIrReady (transferCompleteHandler s3) = true := by
  refine ⟨rfl, ?_⟩
  obtain ⟨s1, hs1, hidle1, -⟩ := run_updates fuel hfuel ids initialState hids rfl
    (List.length_replicate _ _)
  obtain ⟨s3, hs3, hflag3⟩ := run_waiting fuel waiting
    (transponderIrDMAEnable { resetCursor s1 with transponderIrDataTransferInProgress := 1 })
    hwaiting
  refine ⟨s1, transponderIrDMAEnable
    { resetCursor s1 with transponderIrDataTransferInProgress := 1 }, s3, hs1, ?_, ?_, rfl,
    hs3, ?_, rfl⟩
  · simp [isTransponderIrReady, hidle1]
  · simp only [step, transponderIrTransmit, wait_idle fuel s1 hidle1 (by omega)]
  · have : s3.transponderIrDataTransferInProgress = 1 := hflag3
    simp [isTransponderIrReady, this]

/-- Witness of C12: two update calls, a transmit, then an `isReady` call, a busy-wait iteration
and another `isReady` call before the completion step. -/
theorem C12_readiness_witness :
    isTransponderIrReady initialState = true ∧
    ∃ s1 s2 s3,
      run 401 ([[0, 0, 0, 0, 0, 7], [0, 0, 0, 0, 0, 63]].map Action.update) initialState
        = .ok s1 ∧
      isTransponderIrReady s1 = true ∧
      step 401 Action.transmit s1 = .ok s2 ∧
      isTransponderIrReady s2 = false ∧
      run 401 [Action.isReady, Action.waitSpin, Action.isReady] s2 = .ok s3 ∧
      isTransponderIrReady s3 = false ∧
      isTransponderIrReady (transferCompleteHandler s3) = true :=
  C12_readiness 401 [[0, 0, 0, 0, 0, 7], [0, 0, 0, 0, 0, 63]]
    [Action.isReady, Action.waitSpin, Action.isReady] (by decide) (by decide) (by decide)

/-- C13: for every id of at least 6 bytes and every state whose transfer-in-progress flag is 0,
`transponderIrUpdateData` returns exactly the state that the encoder (the second body of
`updateTransponderDMABuffer_erlt`) returns for this id from this state, so the same buffer and
cursor, and the flag is still 0 in it. -/
theorem C13_update_stages (fuel : Nat) (transponderData : List Nat) (s : State)
    (hid : 6 ≤ transponderData.length)
    (hidle : s.transponderIrDataTransferInProgress = 0)
    (hcap : s.transponderIrDMABuffer.length = TRANSPONDER_DMA_BUFFER_SIZE)
    (hfuel : 401 ≤ fuel) :
    ∃ s1, transponderIrUpdateData fuel transponderData s = .ok s1 ∧
      updateTransponderDMABuffer_erlt fuel transponderData s = .ok s1 ∧
      s1.transponderIrDataTransferInProgress = 0 := by
  obtain ⟨s1, hupdate, hencoder, hflag, -⟩ :=
    update_idle fuel transponderData s hid hidle hcap hfuel
  exact ⟨s1, hupdate, hencoder, hflag⟩

/-- Witness of C13: an update with byte 5 equal to 12 from the initial state. -/
theorem C13_update_stages_witness :
    ∃ s1, transponderIrUpdateData 401 [0, 0, 0, 0, 0, 12] initialState = .ok s1 ∧
      updateTransponderDMABuffer_erlt 401 [0, 0, 0, 0, 0, 12] initialState = .ok s1 ∧
      s1.transponderIrDataTransferInProgress = 0 :=
  C13_update_stages 401 [0, 0, 0, 0, 0, 12] initialState (by decide) rfl
    (List.length_replicate _ _) (by decide)

theorem storeLoopCounted_wrote (bits bound v : Nat) (s0 : State) (k : Nat) :
    ∀ (fuel i : Nat) (w : List Nat), i + k = bound → bound < 2 ^ bits → k < fuel →
      w.length + k ≤ s0.transponderIrDMABuffer.length → w.length + k < 65536 →
      storeLoopCounted bits bound v fuel i (wrote s0 w)
        = .ok (wrote s0 (w ++ List.replicate k v), k, false) := by
  induction k with
  | zero =>
    intro fuel i w hi _ hfuel _ _
    obtain ⟨f, rfl⟩ : ∃ f, fuel = f + 1 := ⟨fuel - 1, by omega⟩
    have : ¬ i < bound := by omega
    simp [storeLoopCounted, this]
  | succ k ih =>
    intro fuel i w hi hbits hfuel hlen h16
    obtain ⟨f, rfl⟩ : ∃ f, fuel = f + 1 := ⟨fuel - 1, by omega⟩
    have hlt : i < bound := by omega
    have hmod : (i + 1) % 2 ^ bits = i + 1 := Nat.mod_eq_of_lt (by omega)
    have hstore := storeAtCursor_wrote s0 w v (by omega) (by omega)
    have hi16 : ¬ 2 ^ bits ≤ i + 1 := by omega
    have hc16 : ¬ 65536 ≤ (wrote s0 w).dmaBufferOffset + 1 := by
      show ¬ 65536 ≤ w.length + 1
      omega
    simp only [storeLoopCounted, hlt, if_true, hstore, hmod]
    rw [ih f (i + 1) (w ++ [v]) (by omega) hbits (by omega)
      (by simp only [List.length_append, List.length_singleton]; omega)
      (by simp only [List.length_append, List.length_singleton]; omega)]
    simp [List.replicate_succ, hi16, hc16]

theorem bitmask_shift_lt (i : Nat) : ¬ 256 ≤ (32 >>> i) >>> 1 := by
  rw [← Nat.shiftRight_add, Nat.shiftRight_eq_div_pow]
  have := Nat.div_le_self 32 (2 ^ (i + 1))
  omega

theorem dataBitsLoopCounted_wrote (code : Nat) (hcode : code < 64) (s0 : State) (m : Nat) :
    ∀ (fuel i : Nat) (p : Bool) (w : List Nat), i + m = 6 → m + 14 < fuel →
      w.length + 13 * m ≤ s0.transponderIrDMABuffer.length → w.length + 13 * m < 65536 →
      dataBitsLoopCounted code fuel i (32 >>> i) p (wrote s0 w)
        = .ok (parityFrom code m i p, wrote s0 (w ++ dataRunsFrom code m i),
            dataRunLengthsFrom code m i, m, false) := by
  induction m with
  | zero =>
    intro fuel i p w hi hfuel _ _
    obtain ⟨f, rfl⟩ : ∃ f, fuel = f + 1 := ⟨fuel - 1, by omega⟩
    have : ¬ i < 6 := by omega
    simp [dataBitsLoopCounted, this, parityFrom, dataRunsFrom, dataRunLengthsFrom]
  | succ m ih =>
    intro fuel i p w hi hfuel hlen h16
    obtain ⟨f, rfl⟩ : ∃ f, fuel = f + 1 := ⟨fuel - 1, by omega⟩
    have hlt : i < 6 := by omega
    have hmod : (i + 1) % 65536 = i + 1 := Nat.mod_eq_of_lt (by omega)
    have hi16 : ¬ 65536 ≤ i + 1 := by omega
    have hmask := bitmask_shift_lt i
    have hval : (if i &&& 1 = 0 then 50 else 0) = (if i % 2 = 0 then 50 else 0) := by
      rw [Nat.and_one_is_mod]
    by_cases hbit : code &&& (32 >>> i) = 0
    · have htest : code.testBit (5 - i) = false := (bitmask_test code hcode i hlt).1 hbit
      have hrun := storeLoopCounted_wrote 8 5 (if i % 2 = 0 then 50 else 0) s0 5 f 0 w
        (by omega) (by decide) (by omega) (by omega) (by omega)
      have hrec := ih f (i + 1) p (w ++ List.replicate 5 (if i % 2 = 0 then 50 else 0))
        (by omega) (by omega)
        (by simp only [List.length_append, List.length_replicate]; omega)
        (by simp only [List.length_append, List.length_replicate]; omega)
      simp only [dataBitsLoopCounted, hlt, if_true, hbit, NUM_PERIODS_0, hval, hmod,
        bitmask_shift]
      rw [show 5 % 256 = 5 from rfl, hrun]
      simp only [hrec, parityFrom, dataRunsFrom, dataRun, dataRunLengthsFrom, htest,
        List.append_assoc]
      simp [hi16, hmask]
    · have htest : code.testBit (5 - i) = true := by
        have := (bitmask_test code hcode i hlt).not.1 hbit
        simpa using this
      have hrun := storeLoopCounted_wrote 8 13 (if i % 2 = 0 then 50 else 0) s0 13 f 0 w
        (by omega) (by decide) (by omega) (by omega) (by omega)
      have hrec := ih f (i + 1) (!p) (w ++ List.replicate 13 (if i % 2 = 0 then 50 else 0))
        (by omega) (by omega)
        (by simp only [List.length_append, List.length_replicate]; omega)
        (by simp only [List.length_append, List.length_replicate]; omega)
      simp only [dataBitsLoopCounted, hlt, if_true, hbit, if_false, NUM_PERIODS_1, hval, hmod,
        bitmask_shift]
      rw [show 13 % 256 = 13 from rfl, hrun]
      simp only [hrec, parityFrom, dataRunsFrom, dataRun, dataRunLengthsFrom, htest,
        List.append_assoc]
      simp [hi16, hmask]

theorem dataRunLengthsFrom_spec (code m : Nat) :
    ∀ i, (dataRunLengthsFrom code m i).length = m ∧
      ∀ n ∈ dataRunLengthsFrom code m i, n = 5 ∨ n = 13 := by
  induction m with
  | zero => intro i; simp [dataRunLengthsFrom]
  | succ m ih =>
    intro i
    obtain ⟨hlen, hall⟩ := ih (i + 1)
    refine ⟨by simp [dataRunLengthsFrom, hlen], ?_⟩
    intro n hn
    simp only [dataRunLengthsFrom, List.mem_cons] at hn
    rcases hn with rfl | hn
    · split <;> simp
    · exact hall n hn

/-- The counted encoder returns the state of `encoder_eq` and the body counts of its loops, with
no update of a counter outside the range of its type. -/
theorem encoder_counted_eq (fuel : Nat) (transponderData : List Nat) (s : State) (b : Nat)
    (hb : transponderData[5]? = some b) (hfuel : 401 ≤ fuel)
    (hcap : s.transponderIrDMABuffer.length = TRANSPONDER_DMA_BUFFER_SIZE) :
    updateTransponderDMABuffer_erlt_counted fuel transponderData s
      = .ok (wrote s (referenceFrame (erltIrCodeOf b)),
          { headerOn := 5
            headerOff := 5
            dataRuns := dataRunLengthsFrom (erltIrCodeOf b) 6 0
            dataBits := 6
            parityRun := if parityFrom (erltIrCodeOf b) 6 0 true = true then 5 else 13
            padding := 400 - (activePart (erltIrCodeOf b)).length
            wrapped := false }) := by
  have hcap720 : s.transponderIrDMABuffer.length = 720 := hcap
  have hcode : erltIrCodeOf b < 64 := erltIrCodeOf_lt b
  have hruns := dataRunsFrom_length_le (erltIrCodeOf b) 6 0
  have hact := loop_activePart (erltIrCodeOf b) hcode
  have hactlen := activePart_length_le (erltIrCodeOf b) hcode
  have h1 := storeLoopCounted_wrote 16 5 50 s 5 fuel 0 [] rfl (by decide) (by omega)
    (by simp only [List.length_nil]; omega) (by simp)
  have h2 := storeLoopCounted_wrote 16 5 0 s 5 fuel 0 ([] ++ List.replicate 5 50) rfl
    (by decide) (by omega)
    (by simp only [List.length_append, List.length_replicate, List.length_nil]; omega)
    (by simp)
  have h3 := dataBitsLoopCounted_wrote (erltIrCodeOf b) hcode s 6 fuel 0 true
    ([] ++ List.replicate 5 50 ++ List.replicate 5 0) rfl (by omega)
    (by simp only [List.length_append, List.length_replicate, List.length_nil]; omega)
    (by simp)
  have h4 : ∀ np, np = 5 ∨ np = 13 →
      storeLoopCounted 16 np 50 fuel 0
        (wrote s ([] ++ List.replicate 5 50 ++ List.replicate 5 0
          ++ dataRunsFrom (erltIrCodeOf b) 6 0))
      = .ok (wrote s ([] ++ List.replicate 5 50 ++ List.replicate 5 0
          ++ dataRunsFrom (erltIrCodeOf b) 6 0 ++ List.replicate np 50), np, false) := by
    intro np hnp
    apply storeLoopCounted_wrote 16 np 50 s np fuel 0 _ (by omega)
    · rcases hnp with rfl | rfl <;> decide
    · omega
    · simp only [List.length_append, List.length_replicate, List.length_nil]; omega
    · simp only [List.length_append, List.length_replicate, List.length_nil]; omega
  have hw : [] ++ List.replicate 5 50 ++ List.replicate 5 0
      ++ dataRunsFrom (erltIrCodeOf b) 6 0
      ++ List.replicate (if parityFrom (erltIrCodeOf b) 6 0 true = true then 5 else 13) 50
      = activePart (erltIrCodeOf b) := by
    rw [List.nil_append]; exact hact
  have h5 := storeLoopCounted_wrote 16 400 0 s (400 - (activePart (erltIrCodeOf b)).length) fuel
    (activePart (erltIrCodeOf b)).length (activePart (erltIrCodeOf b)) (by omega) (by decide)
    (by omega) (by omega) (by omega)
  have hcur : (wrote s (activePart (erltIrCodeOf b))).dmaBufferOffset
      = (activePart (erltIrCodeOf b)).length := rfl
  have hnp : (if parityFrom (erltIrCodeOf b) 6 0 true = true then 5 % 256 else 13 % 256)
      = (if parityFrom (erltIrCodeOf b) 6 0 true = true then 5 else 13) := rfl
  simp only [updateTransponderDMABuffer_erlt_counted, hb, resetCursor_eq_wrote, NUM_PERIODS_0,
    NUM_PERIODS_1, h1, h2]
  rw [show (32 : Nat) = 32 >>> 0 from rfl, h3]
  simp only []
  rw [hnp, h4 _ (by split <;> simp), hw]
  simp only [hcur, h5]
  simp [referenceFrame]

set_option maxRecDepth 100000 in
theorem decodeCode_referenceFrame : ∀ code < 64, decodeCode (referenceFrame code) = code := by
  decide

set_option maxRecDepth 100000 in
theorem referenceFrame_gap : ∀ code < 64,
    (referenceFrame code).drop (activePart code).length
      = List.replicate (400 - (activePart code).length) 0 := by
  decide

/-- C14: for every id of at least 6 bytes and every initial state with a buffer of 720 entries,
the encoder returns a state with fuel 401 or more, and its counted run returns the same state:
the two header loops run 5 times each, the data-bit loop 6 times with an inner loop of at most
13 iterations each time, the parity loop at most 13 times and the padding loop at most 400
times, and no update of `i`, `j`, `bitmask` or `dmaBufferOffset` leaves the range of its
type. -/
theorem C14_totality (fuel : Nat) (transponderData : List Nat) (s : State)
    (hid : 6 ≤ transponderData.length)
    (hcap : s.transponderIrDMABuffer.length = TRANSPONDER_DMA_BUFFER_SIZE)
    (hfuel : 401 ≤ fuel) :
    ∃ s1 stats, updateTransponderDMABuffer_erlt fuel transponderData s = .ok s1 ∧
      updateTransponderDMABuffer_erlt_counted fuel transponderData s = .ok (s1, stats) ∧
      stats.headerOn = 5 ∧ stats.headerOff = 5 ∧
      stats.dataBits = 6 ∧ stats.dataRuns.length = 6 ∧ (∀ n ∈ stats.dataRuns, n ≤ 13) ∧
      stats.parityRun ≤ 13 ∧ stats.padding ≤ 400 ∧
      stats.wrapped = false := by
  have hb : transponderData[5]? = some transponderData[5] := List.getElem?_eq_getElem (by omega)
  have hruns := dataRunLengthsFrom_spec (erltIrCodeOf transponderData[5]) 6 0
  refine ⟨_, _, encoder_eq fuel transponderData s _ hb hfuel hcap,
    encoder_counted_eq fuel transponderData s _ hb hfuel hcap, rfl, rfl, rfl, hruns.1, ?_, ?_,
    ?_, rfl⟩
  · intro n hn
    rcases hruns.2 n hn with rfl | rfl <;> decide
  · show (if parityFrom (erltIrCodeOf transponderData[5]) 6 0 true = true then 5 else 13) ≤ 13
    split <;> decide
  · show 400 - (activePart (erltIrCodeOf transponderData[5])).length ≤ 400
    omega

/-- Witness of C14: an id with byte 5 equal to 0 (six 1-bits in the code, the longest active
part), encoded from the initial state. -/
theorem C14_totality_witness :
    ∃ s1 stats, updateTransponderDMABuffer_erlt 401 [0, 0, 0, 0, 0, 0] initialState = .ok s1 ∧
      updateTransponderDMABuffer_erlt_counted 401 [0, 0, 0, 0, 0, 0] initialState
        = .ok (s1, stats) ∧
      stats.headerOn = 5 ∧ stats.headerOff = 5 ∧
      stats.dataBits = 6 ∧ stats.dataRuns.length = 6 ∧ (∀ n ∈ stats.dataRuns, n ≤ 13) ∧
      stats.parityRun ≤ 13 ∧ stats.padding ≤ 400 ∧
      stats.wrapped = false :=
  C14_totality 401 [0, 0, 0, 0, 0, 0] initialState (by decide) (List.length_replicate _ _)
    (by decide)

/-- C15: for all ids `a`, `b` of at least 6 bytes and every initial state with a buffer of 720
entries, encoding `b` after encoding `a` returns the same buffer (all its entries), cursor,
flag and wait counter as encoding `b` directly; encoding `a` twice returns the same buffer,
cursor and flag as encoding it once; and in the state reached by encoding `b` after `a` every
entry from the end of the active part of `b` up to index 399 is 0. -/
theorem C15_no_residue (fuel : Nat) (a b : List Nat) (s : State)
    (ha : 6 ≤ a.length) (hb : 6 ≤ b.length)
    (hcap : s.transponderIrDMABuffer.length = TRANSPONDER_DMA_BUFFER_SIZE)
    (hfuel : 401 ≤ fuel) :
    ∃ s1 s2 s3 s4, updateTransponderDMABuffer_erlt fuel a s = .ok s1 ∧
      updateTransponderDMABuffer_erlt fuel b s1 = .ok s2 ∧
      updateTransponderDMABuffer_erlt fuel b s = .ok s3 ∧
      updateTransponderDMABuffer_erlt fuel a s1 = .ok s4 ∧
      s2.transponderIrDMABuffer = s3.transponderIrDMABuffer ∧
      s2.transponderIrDMABuffer.length = TRANSPONDER_DMA_BUFFER_SIZE ∧
      s2.dmaBufferOffset = s3.dmaBufferOffset ∧
      s2.transponderIrDataTransferInProgress = s3.transponderIrDataTransferInProgress ∧
      s2.waitCounter = s3.waitCounter ∧
      s4.transponderIrDMABuffer = s1.transponderIrDMABuffer ∧
      s4.dmaBufferOffset = s1.dmaBufferOffset ∧
      s4.transponderIrDataTransferInProgress = s1.transponderIrDataTransferInProgress ∧
      (∀ k, (activePart (erltIrCodeOf b[5])).length ≤ k → k < 400 →
        s2.transponderIrDMABuffer[k]? = some 0) := by
  have ha5 : a[5]? = some a[5] := List.getElem?_eq_getElem (by omega)
  have hb5 : b[5]? = some b[5] := List.getElem?_eq_getElem (by omega)
  obtain ⟨s1, hs1, htake1, hdrop1, hlen1, hcur1, hflag1, hwait1⟩ :=
    encoder_result fuel a s _ ha5 hfuel hcap
  obtain ⟨s2, hs2, htake2, hdrop2, hlen2, hcur2, hflag2, hwait2⟩ :=
    encoder_result fuel b s1 _ hb5 hfuel (hlen1.trans hcap)
  obtain ⟨s3, hs3, htake3, hdrop3, hlen3, hcur3, hflag3, hwait3⟩ :=
    encoder_result fuel b s _ hb5 hfuel hcap
  obtain ⟨s4, hs4, htake4, hdrop4, hlen4, hcur4, hflag4, hwait4⟩ :=
    encoder_result fuel a s1 _ ha5 hfuel (hlen1.trans hcap)
  have h23 : s2.transponderIrDMABuffer = s3.transponderIrDMABuffer := by
    rw [← List.take_append_drop 400 s2.transponderIrDMABuffer,
      ← List.take_append_drop 400 s3.transponderIrDMABuffer, htake2, htake3, hdrop2, hdrop3,
      hdrop1]
  have h41 : s4.transponderIrDMABuffer = s1.transponderIrDMABuffer := by
    rw [← List.take_append_drop 400 s4.transponderIrDMABuffer,
      ← List.take_append_drop 400 s1.transponderIrDMABuffer, htake4, htake1, hdrop4]
  refine ⟨s1, s2, s3, s4, hs1, hs2, hs3, hs4, h23, (hlen2.trans hlen1).trans hcap,
    hcur2.trans hcur3.symm, hflag2.trans (hflag1.trans hflag3.symm),
    hwait2.trans (hwait1.trans hwait3.symm), h41, hcur4.trans hcur1.symm, hflag4, ?_⟩
  intro k hk1 hk2
  have hcode := erltIrCodeOf_lt b[5]
  have hgap := referenceFrame_gap _ hcode
  have hactlen := activePart_length_le _ hcode
  have hk : (activePart (erltIrCodeOf b[5])).length
      + (k - (activePart (erltIrCodeOf b[5])).length) = k := by omega
  have h1 : (s2.transponderIrDMABuffer.take 400)[k]? = s2.transponderIrDMABuffer[k]? := by
    rw [List.getElem?_take, if_pos hk2]
  rw [← h1, htake2, ← hk, ← List.getElem?_drop, hgap, List.getElem?_replicate]
  have : k - (activePart (erltIrCodeOf b[5])).length
      < 400 - (activePart (erltIrCodeOf b[5])).length := by omega
  simp [this]

/-- Witness of C15: the long frame of byte 5 equal to 0 followed by the short frame of byte 5
equal to 63, from a state whose buffer holds 50 everywhere. -/
theorem C15_no_residue_witness :
    ∃ s1 s2 s3 s4,
      updateTransponderDMABuffer_erlt 401 [0, 0, 0, 0, 0, 0]
        { initialState with transponderIrDMABuffer := List.replicate 720 50 } = .ok s1 ∧
      updateTransponderDMABuffer_erlt 401 [0, 0, 0, 0, 0, 63] s1 = .ok s2 ∧
      updateTransponderDMABuffer_erlt 401 [0, 0, 0, 0, 0, 63]
        { initialState with transponderIrDMABuffer := List.replicate 720 50 } = .ok s3 ∧
      updateTransponderDMABuffer_erlt 401 [0, 0, 0, 0, 0, 0] s1 = .ok s4 ∧
      s2.transponderIrDMABuffer = s3.transponderIrDMABuffer ∧
      s2.transponderIrDMABuffer.length = TRANSPONDER_DMA_BUFFER_SIZE ∧
      s2.dmaBufferOffset = s3.dmaBufferOffset ∧
      s2.transponderIrDataTransferInProgress = s3.transponderIrDataTransferInProgress ∧
      s2.waitCounter = s3.waitCounter ∧
      s4.transponderIrDMABuffer = s1.transponderIrDMABuffer ∧
      s4.dmaBufferOffset = s1.dmaBufferOffset ∧
      s4.transponderIrDataTransferInProgress = s1.transponderIrDataTransferInProgress ∧
      (∀ k, (activePart (erltIrCodeOf 63)).length ≤ k → k < 400 →
        s2.transponderIrDMABuffer[k]? = some 0) :=
  C15_no_residue 401 [0, 0, 0, 0, 0, 0] [0, 0, 0, 0, 0, 63]
    { initialState with transponderIrDMABuffer := List.replicate 720 50 }
    (by decide) (by decide) (List.length_replicate 720 50) (by decide)

/-- C16: for all ids `a`, `b` of at least 6 bytes and all initial states with buffers of 720
entries, the encoder returns from both; if entries 0..399 are then the same, the bytes 5 of `a`
and `b` agree on their low 6 bits; and the six data bits read off the run lengths of the frame
of `a` give back its 6-bit identifier. -/
theorem C16_decodable (fuel1 fuel2 : Nat) (a b : List Nat) (s t : State)
    (ha : 6 ≤ a.length) (hb : 6 ≤ b.length)
    (habytes : ∀ x ∈ a, x < 256) (hbbytes : ∀ x ∈ b, x < 256)
    (hs : s.transponderIrDMABuffer.length = TRANSPONDER_DMA_BUFFER_SIZE)
    (ht : t.transponderIrDMABuffer.length = TRANSPONDER_DMA_BUFFER_SIZE)
    (hfuel1 : 401 ≤ fuel1) (hfuel2 : 401 ≤ fuel2) :
    ∃ s1 t1, updateTransponderDMABuffer_erlt fuel1 a s = .ok s1 ∧
      updateTransponderDMABuffer_erlt fuel2 b t = .ok t1 ∧
      (s1.transponderIrDMABuffer.take 400 = t1.transponderIrDMABuffer.take 400 →
        a[5] &&& 63 = b[5] &&& 63) ∧
      63 - decodeCode (s1.transponderIrDMABuffer.take 400) = a[5] &&& 63 := by
  have ha5 : a[5]? = some a[5] := List.getElem?_eq_getElem (by omega)
  have hb5 : b[5]? = some b[5] := List.getElem?_eq_getElem (by omega)
  obtain ⟨s1, hs1, hstake, -⟩ := encoder_result fuel1 a s _ ha5 hfuel1 hs
  obtain ⟨t1, ht1, httake, -⟩ := encoder_result fuel2 b t _ hb5 hfuel2 ht
  have hac : erltIrCodeOf a[5] = 63 - (a[5] &&& 63) :=
    erltIrCodeOf_low_bits _ (habytes _ (List.getElem_mem _))
  have hbc : erltIrCodeOf b[5] = 63 - (b[5] &&& 63) :=
    erltIrCodeOf_low_bits _ (hbbytes _ (List.getElem_mem _))
  have hale : a[5] &&& 63 ≤ 63 := Nat.and_le_right
  have hble : b[5] &&& 63 ≤ 63 := Nat.and_le_right
  have hdeca := decodeCode_referenceFrame _ (erltIrCodeOf_lt a[5])
  have hdecb := decodeCode_referenceFrame _ (erltIrCodeOf_lt b[5])
  refine ⟨s1, t1, hs1, ht1, ?_, ?_⟩
  · intro heq
    rw [hstake, httake] at heq
    have hcodes : erltIrCodeOf a[5] = erltIrCodeOf b[5] := by
      rw [← hdeca, ← hdecb, heq]
    omega
  · rw [hstake, hdeca]
    omega

/-- Witness of C16: the ids with bytes 5 equal to 9 and to 200 (low 6 bits 8), encoded from the
initial state. -/
theorem C16_decodable_witness :
    ∃ s1 t1, updateTransponderDMABuffer_erlt 401 [0, 0, 0, 0, 0, 9] initialState = .ok s1 ∧
      updateTransponderDMABuffer_erlt 401 [0, 0, 0, 0, 0, 200] initialState = .ok t1 ∧
      (s1.transponderIrDMABuffer.take 400 = t1.transponderIrDMABuffer.take 400 →
        9 &&& 63 = 200 &&& 63) ∧
      63 - decodeCode (s1.transponderIrDMABuffer.take 400) = 9 &&& 63 :=
  C16_decodable 401 401 [0, 0, 0, 0, 0, 9] [0, 0, 0, 0, 0, 200] initialState initialState
    (by decide) (by decide) (by decide) (by decide) (List.length_replicate _ _)
    (List.length_replicate _ _) (by decide) (by decide)

/-- The first body, run on any state whose buffer has the capacity of the driver, returns the
state in which the cursor was reset and the test pattern was written from index 0. -/
theorem testPattern_eq (fuel : Nat) (ignored : List Nat) (s : State) (hfuel : 14 ≤ fuel)
    (hcap : s.transponderIrDMABuffer.length = TRANSPONDER_DMA_BUFFER_SIZE) :
    updateTransponderDMABuffer_erlt_testPattern fuel ignored s
      = .ok (wrote s testPatternEntries) := by
  have hcap720 : s.transponderIrDMABuffer.length = 720 := hcap
  have hstep : ∀ (w : List Nat) (k v : Nat), k ≤ 13 → w.length ≤ 88 →
      storeLoop 8 k v fuel 0 (wrote s w) = .ok (wrote s (w ++ List.replicate k v)) :=
    fun w k v hk hw => storeLoop_wrote 8 k v s k fuel 0 w (by omega)
      (Nat.lt_of_le_of_lt hk (by decide)) (by omega) (by omega) (by omega)
  have h1 := hstep ([]) 5 50 (by decide) (by simp)
  have h2 := hstep ([] ++ List.replicate 5 50) 5 0 (by decide) (by simp)
  have h3 := hstep ([] ++ List.replicate 5 50 ++ List.replicate 5 0) 13 50 (by decide) (by simp)
  have h4 := hstep ([] ++ List.replicate 5 50 ++ List.replicate 5 0 ++ List.replicate 13 50) 13 0 (by decide) (by simp)
  have h5 := hstep ([] ++ List.replicate 5 50 ++ List.replicate 5 0 ++ List.replicate 13 50 ++ List.replicate 13 0) 13 50 (by decide) (by simp)
  have h6 := hstep ([] ++ List.replicate 5 50 ++ List.replicate 5 0 ++ List.replicate 13 50 ++ List.replicate 13 0 ++ List.replicate 13 50) 13 0 (by decide) (by simp)
  have h7 := hstep ([] ++ List.replicate 5 50 ++ List.replicate 5 0 ++ List.replicate 13 50 ++ List.replicate 13 0 ++ List.replicate 13 50 ++ List.replicate 13 0) 13 50 (by decide) (by simp)
  have h8 := hstep ([] ++ List.replicate 5 50 ++ List.replicate 5 0 ++ List.replicate 13 50 ++ List.replicate 13 0 ++ List.replicate 13 50 ++ List.replicate 13 0 ++ List.replicate 13 50) 13 0 (by decide) (by simp)
  have h9 := hstep ([] ++ List.replicate 5 50 ++ List.replicate 5 0 ++ List.replicate 13 50 ++ List.replicate 13 0 ++ List.replicate 13 50 ++ List.replicate 13 0 ++ List.replicate 13 50 ++ List.replicate 13 0) 5 50 (by decide) (by simp)
  simp only [updateTransponderDMABuffer_erlt_testPattern, resetCursor_eq_wrote, h1, h2, h3, h4, h5, h6, h7, h8, h9]
  rw [List.nil_append]
  rfl

theorem testPatternEntries_length : testPatternEntries.length = 93 := by
  decide

set_option maxRecDepth 100000 in
theorem referenceFrame_63_take : (referenceFrame 63).take 93 = testPatternEntries := by
  decide

/-- C17: for every initial state with a buffer of 720 entries and whatever its argument, the
first body of `updateTransponderDMABuffer_erlt` returns after storing at the indices 0..92, in
this order, with the cursor at 93; its entries 0..92 are those the second body writes for any
id of at least 6 bytes with `id[5] & 63 = 0` (code 63), from any state; and the first body
leaves every entry from index 93 on as it was. -/
theorem C17_test_pattern (fuel1 fuel2 : Nat) (ignored transponderData : List Nat)
    (s t : State) (hid : 6 ≤ transponderData.length)
    (hbytes : ∀ x ∈ transponderData, x < 256) (hlow : transponderData[5] &&& 63 = 0)
    (hs : s.transponderIrDMABuffer.length = TRANSPONDER_DMA_BUFFER_SIZE)
    (ht : t.transponderIrDMABuffer.length = TRANSPONDER_DMA_BUFFER_SIZE)
    (hfuel1 : 14 ≤ fuel1) (hfuel2 : 401 ≤ fuel2) :
    erltIrCodeOf transponderData[5] = 63 ∧
    ∃ s1 t1 events, updateTransponderDMABuffer_erlt_testPattern fuel1 ignored s = .ok s1 ∧
      s1.trace = events ++ s.trace ∧
      storeIndices events = (List.range 93).reverse ∧
      s1.dmaBufferOffset = 93 ∧
      updateTransponderDMABuffer_erlt fuel2 transponderData t = .ok t1 ∧
      s1.transponderIrDMABuffer.take 93 = t1.transponderIrDMABuffer.take 93 ∧
      (∀ k, 93 ≤ k → s1.transponderIrDMABuffer[k]? = s.transponderIrDMABuffer[k]?) ∧
      s1.transponderIrDMABuffer.length = s.transponderIrDMABuffer.length := by
  have hb : transponderData[5]? = some transponderData[5] := List.getElem?_eq_getElem (by omega)
  have hcode : erltIrCodeOf transponderData[5] = 63 := by
    have : erltIrCodeOf transponderData[5] = 63 - (transponderData[5] &&& 63) :=
      erltIrCodeOf_low_bits _ (hbytes _ (List.getElem_mem _))
    rw [this, hlow]
  have hs720 : s.transponderIrDMABuffer.length = 720 := hs
  obtain ⟨t1, ht1, httake, -⟩ := encoder_result fuel2 transponderData t _ hb hfuel2 ht
  have hlen := testPatternEntries_length
  have htake1 := wrote_take s testPatternEntries
  have hdrop1 := wrote_drop s testPatternEntries
  rw [hlen] at htake1 hdrop1
  refine ⟨hcode, wrote s testPatternEntries, t1,
    (eventsOf 0 testPatternEntries).reverse ++ [Event.cursor 0],
    testPattern_eq fuel1 ignored s hfuel1 hs, ?_, ?_, hlen, ht1, ?_, ?_, ?_⟩
  · simp [wrote]
  · have := storeIndices_eventsOf testPatternEntries 0
    simp only [storeIndices] at this ⊢
    simp [List.filterMap_append, List.filterMap_reverse, this, hlen, List.range_eq_range']
  · have h93 : t1.transponderIrDMABuffer.take 93
        = (t1.transponderIrDMABuffer.take 400).take 93 := by
      rw [List.take_take, show min 93 400 = 93 from rfl]
    rw [htake1, h93, httake, hcode, referenceFrame_63_take]
  · intro k hk
    have hk93 : 93 + (k - 93) = k := by omega
    have h1 : ((wrote s testPatternEntries).transponderIrDMABuffer.drop 93)[k - 93]?
        = (wrote s testPatternEntries).transponderIrDMABuffer[k]? := by
      rw [List.getElem?_drop, hk93]
    have h2 : (s.transponderIrDMABuffer.drop 93)[k - 93]? = s.transponderIrDMABuffer[k]? := by
      rw [List.getElem?_drop, hk93]
    rw [← h1, ← h2, hdrop1]
  · exact wrote_length s _ (by omega)

/-- Witness of C17: the test pattern written over a buffer holding 9 everywhere, and the second
body run on an id with byte 5 equal to 64 from the initial state. -/
theorem C17_test_pattern_witness :
    erltIrCodeOf 64 = 63 ∧
    ∃ s1 t1 events,
      updateTransponderDMABuffer_erlt_testPattern 14 [1, 2, 3]
        { initialState with transponderIrDMABuffer := List.replicate 720 9 } = .ok s1 ∧
      s1.trace = events ++ [] ∧
      storeIndices events = (List.range 93).reverse ∧
      s1.dmaBufferOffset = 93 ∧
      updateTransponderDMABuffer_erlt 401 [0, 0, 0, 0, 0, 64] initialState = .ok t1 ∧
      s1.transponderIrDMABuffer.take 93 = t1.transponderIrDMABuffer.take 93 ∧
      (∀ k, 93 ≤ k → s1.transponderIrDMABuffer[k]? = (List.replicate 720 9)[k]?) ∧
      s1.transponderIrDMABuffer.length = (List.replicate 720 9).length :=
  C17_test_pattern 14 401 [1, 2, 3] [0, 0, 0, 0, 0, 64]
    { initialState with transponderIrDMABuffer := List.replicate 720 9 } initialState
    (by decide) (by decide) (by decide) (List.length_replicate 720 9)
    (List.length_replicate _ _) (by decide) (by decide)

set_option maxRecDepth 100000 in
theorem lastNonZero_referenceFrame : ∀ code < 64,
    lastNonZero (referenceFrame code)
      = some (44 + 8 * (onesCount code + onesCount code % 2)) ∧
    (activePart code).length = 45 + 8 * (onesCount code + onesCount code % 2) ∧
    (referenceFrame code).drop (45 + 8 * (onesCount code + onesCount code % 2))
      = List.replicate (355 - 8 * (onesCount code + onesCount code % 2)) 0 ∧
    (45 + 8 * (onesCount code + onesCount code % 2)) ∈ [45, 61, 77, 93] := by
  decide

/-- C18: for every id of at least 6 bytes, if `k` is the number of 1-bits of the code
`(~id[5]) & 63` (the bitwise NOT of byte 5 masked to 6 bits), then after encoding the last
non-zero entry among entries 0..399 is at index `44 + 8 * (k + k % 2)`; the active part so has
length 45, 61, 77 or 93, at most 93, and the entries after it up to index 399 are all 0, at
least 307 of them. -/
theorem C18_active_length (fuel : Nat) (transponderData : List Nat) (s : State) (k : Nat)
    (hid : 6 ≤ transponderData.length) (hbytes : ∀ x ∈ transponderData, x < 256)
    (hk : k = onesCount (specCode transponderData[5]))
    (hcap : s.transponderIrDMABuffer.length = TRANSPONDER_DMA_BUFFER_SIZE)
    (hfuel : 401 ≤ fuel) :
    ∃ s1, updateTransponderDMABuffer_erlt fuel transponderData s = .ok s1 ∧
      lastNonZero (s1.transponderIrDMABuffer.take 400) = some (44 + 8 * (k + k % 2)) ∧
      (activePart (specCode transponderData[5])).length = 45 + 8 * (k + k % 2) ∧
      (45 + 8 * (k + k % 2)) ∈ [45, 61, 77, 93] ∧
      45 + 8 * (k + k % 2) ≤ 93 ∧
      (s1.transponderIrDMABuffer.take 400).drop (45 + 8 * (k + k % 2))
        = List.replicate (355 - 8 * (k + k % 2)) 0 ∧
      307 ≤ 355 - 8 * (k + k % 2) := by
  have hb : transponderData[5]? = some transponderData[5] := List.getElem?_eq_getElem (by omega)
  have hlt : transponderData[5] < 256 := hbytes _ (List.getElem_mem _)
  have hcode : erltIrCodeOf transponderData[5] = specCode transponderData[5] :=
    erltIrCodeOf_eq_specCode _ hlt
  obtain ⟨s1, hs1, htake, -⟩ := encoder_result fuel transponderData s _ hb hfuel hcap
  rw [hcode] at htake
  obtain ⟨hlast, hlen, hgap, hmem⟩ := lastNonZero_referenceFrame (specCode transponderData[5])
    (by rw [← hcode]; exact erltIrCodeOf_lt _)
  rw [← hk] at hlast hlen hgap hmem
  have hle : 45 + 8 * (k + k % 2) ≤ 93 := by
    simp only [List.mem_cons, List.mem_singleton, List.not_mem_nil, or_false] at hmem
    omega
  refine ⟨s1, hs1, ?_, hlen, hmem, hle, ?_, by omega⟩
  · rw [htake]; exact hlast
  · rw [htake]; exact hgap

/-- Witness of C18: an id with byte 5 equal to 56 (code `(~56) & 63 = 7`, three 1-bits),
encoded from the initial state; the last non-zero entry is at index 76. -/
theorem C18_active_length_witness :
    ∃ s1, updateTransponderDMABuffer_erlt 401 [0, 0, 0, 0, 0, 56] initialState = .ok s1 ∧
      lastNonZero (s1.transponderIrDMABuffer.take 400) = some (44 + 8 * (3 + 3 % 2)) ∧
      (activePart (specCode 56)).length = 45 + 8 * (3 + 3 % 2) ∧
      (45 + 8 * (3 + 3 % 2)) ∈ [45, 61, 77, 93] ∧
      45 + 8 * (3 + 3 % 2) ≤ 93 ∧
      (s1.transponderIrDMABuffer.take 400).drop (45 + 8 * (3 + 3 % 2))
        = List.replicate (355 - 8 * (3 + 3 % 2)) 0 ∧
      307 ≤ 355 - 8 * (3 + 3 % 2) :=
  C18_active_length 401 [0, 0, 0, 0, 0, 56] initialState 3 (by decide) (by decide) (by decide)
    (List.length_replicate _ _) (by decide)

/-- The number of indices at which an entry differs from the next one is `levelChanges`. -/
theorem levelChanges_eq_filter (l : List Nat) :
    ((List.range (l.length - 1)).filter (fun j => decide (l[j]? ≠ l[j + 1]?))).length
      = levelChanges l := by
  induction l with
  | nil => simp [levelChanges]
  | cons a tail ih =>
    cases tail with
    | nil => simp [levelChanges]
    | cons b rest =>
      have hlen : (a :: b :: rest).length - 1 = rest.length + 1 := by simp
      have hlen2 : (b :: rest).length - 1 = rest.length := by simp
      rw [hlen2] at ih
      rw [hlen, List.range_succ_eq_map, List.filter_cons, List.filter_map, levelChanges, ← ih]
      have hfun : ((fun j => decide ((a :: b :: rest)[j]? ≠ (a :: b :: rest)[j + 1]?))
          ∘ Nat.succ) = (fun j => decide ((b :: rest)[j]? ≠ (b :: rest)[j + 1]?)) := by
        funext j
        simp
      rw [hfun]
      by_cases hab : a = b
      · simp [hab]
      · simp [hab]
        omega

set_option maxRecDepth 100000 in
theorem levelChanges_referenceFrame : ∀ code < 64,
    levelChanges (referenceFrame code) = 9 ∧
    (runLengths (referenceFrame code)).map Prod.fst = [50, 0, 50, 0, 50, 0, 50, 0, 50, 0] := by
  decide

/-- C19: for every id of at least 6 bytes, among the 400 frame entries the encoder writes there
are exactly 9 indices `j` in 0..398 at which entry `j` differs from entry `j + 1`; the frame
has exactly 10 maximal runs, whose levels alternate between on (50) and off (0), starting with
on. -/
theorem C19_alternation (fuel : Nat) (transponderData : List Nat) (s : State)
    (hid : 6 ≤ transponderData.length)
    (hcap : s.transponderIrDMABuffer.length = TRANSPONDER_DMA_BUFFER_SIZE)
    (hfuel : 401 ≤ fuel) :
    ∃ s1, updateTransponderDMABuffer_erlt fuel transponderData s = .ok s1 ∧
      ((List.range 399).filter (fun j => decide ((s1.transponderIrDMABuffer.take 400)[j]?
        ≠ (s1.transponderIrDMABuffer.take 400)[j + 1]?))).length = 9 ∧
      (runLengths (s1.transponderIrDMABuffer.take 400)).length = 10 ∧
      (runLengths (s1.transponderIrDMABuffer.take 400)).map Prod.fst
        = [50, 0, 50, 0, 50, 0, 50, 0, 50, 0] := by
  have hb : transponderData[5]? = some transponderData[5] := List.getElem?_eq_getElem (by omega)
  have hcode := erltIrCodeOf_lt transponderData[5]
  obtain ⟨s1, hs1, htake, -⟩ := encoder_result fuel transponderData s _ hb hfuel hcap
  obtain ⟨hchanges, hlevels⟩ := levelChanges_referenceFrame _ hcode
  have hfilter := levelChanges_eq_filter (referenceFrame (erltIrCodeOf transponderData[5]))
  rw [referenceFrame_length _ hcode, hchanges] at hfilter
  refine ⟨s1, hs1, ?_, ?_, ?_⟩
  · rw [htake]; exact hfilter
  · rw [htake]; exact (parity_referenceFrame _ hcode).1
  · rw [htake]; exact hlevels

/-- Witness of C19: an id with byte 5 equal to 63 (code 0, only short runs), encoded from the
initial state. -/
theorem C19_alternation_witness :
    ∃ s1, updateTransponderDMABuffer_erlt 401 [0, 0, 0, 0, 0, 63] initialState = .ok s1 ∧
      ((List.range 399).filter (fun j => decide ((s1.transponderIrDMABuffer.take 400)[j]?
        ≠ (s1.transponderIrDMABuffer.take 400)[j + 1]?))).length = 9 ∧
      (runLengths (s1.transponderIrDMABuffer.take 400)).length = 10 ∧
      (runLengths (s1.transponderIrDMABuffer.take 400)).map Prod.fst
        = [50, 0, 50, 0, 50, 0, 50, 0, 50, 0] :=
  C19_alternation 401 [0, 0, 0, 0, 0, 63] initialState (by decide) (List.length_replicate _ _)
    (by decide)

end TransponderIr
